import Mathlib

/-!
# exchange-sync: a shallow embedding of `main.go`

The program is a linear command-line client for an Exchange ActiveSync style
server.  It loads a YAML configuration, posts one `FolderSync` request, keeps
the folders whose type equals the configured marker, writes them to
`calendars.json` and posts one `Sync` request carrying a hard-coded event.

Go values are embedded as follows.

* a Go `string` and a `[]byte` are sequences of bytes (`List Byte`);
* a Go slice is `Option (List α)`: `none` is the nil slice;
* a Go `error` is `Option Error` (`none` is `nil`), and a Go function that
  returns `(T, error)` returns `Except Error T`;
* everything outside `main.go` that answers the program (file system, network,
  clock, the YAML and XML codecs) is a field of `Env`;
* the input and output a function performs is the `List Effect` it returns next
  to its result, in the order performed.
-/

namespace ExchangeSync

/-! ## Go base types -/

/-- A Go `byte`. -/
abbrev Byte := Fin 256

/-- A Go `string`: an immutable sequence of bytes, compared bytewise by `==`. -/
abbrev GoString := List Byte

/-- A Go `[]byte` holding data. -/
abbrev Bytes := List Byte

/-- The bytes of a string literal of the source (Go source text is UTF-8). -/
def str (s : String) : GoString :=
  (s.toList.flatMap String.utf8EncodeChar).map (fun b => Fin.ofNat b.toNat)

/-- A Go slice value: `none` is the nil slice, `some xs` a non-nil slice. -/
abbrev Slice (α : Type) := Option (List α)

/-- The elements a `range` loop over the slice visits, in order. -/
def Slice.elems {α : Type} : Slice α → List α
  | none => []
  | some xs => xs

/-- A Go `error` value that is not nil. -/
abbrev Error := String

/-- A `time.Time`, in nanoseconds. -/
abbrev Time := Int

/-! ## The types of `main.go` -/

structure Config where
  ExchangeURL : GoString
  Username : GoString
  Password : GoString
  DeviceID : GoString
  CalendarFolderType : GoString
deriving DecidableEq, Repr

structure FolderSyncRequest where
  SyncKey : GoString
deriving DecidableEq, Repr

structure Folder where
  DisplayName : GoString
  /-- Field `Type` of the source (a reserved word here). -/
  Type_ : GoString
  FolderID : GoString
deriving DecidableEq, Repr

structure FolderSyncResponse where
  Status : Int
  SyncKey : GoString
  Folders : Slice Folder
deriving DecidableEq, Repr

structure Event where
  Subject : GoString
  StartTime : GoString
  EndTime : GoString
  Description : GoString
  Location : GoString
deriving DecidableEq, Repr

structure SyncResponse where
  Status : Int
  SyncKey : GoString
deriving DecidableEq, Repr

/-! ## The world outside `main.go` -/

/-- An `*http.Request` as far as the program sets it up. -/
structure Request where
  Method : GoString
  /-- The URL string handed to `http.NewRequest`, as written by the program. -/
  URL : GoString
  Body : Bytes
  /-- The user name and password given to `SetBasicAuth`, if it was called. -/
  BasicAuth : Option (GoString × GoString)
  /-- The header fields set with `Header.Set`, in the order first set. -/
  Header : List (GoString × GoString)
deriving DecidableEq, Repr

/-- An `*http.Response`: what `io.ReadAll(resp.Body)` is going to return. -/
structure Response where
  Body : Except Error Bytes

/-- Method `req.SetBasicAuth(username, password)`. -/
def Request.SetBasicAuth (req : Request) (username password : GoString) : Request :=
  { req with BasicAuth := some (username, password) }

/-- Method `req.Header.Set(key, value)`: the value replaces any earlier one. -/
def Request.HeaderSet (req : Request) (key value : GoString) : Request :=
  { req with Header := (req.Header.filter (fun kv => kv.1 ≠ key)) ++ [(key, value)] }

/-- The answers of everything the program calls but does not define. -/
structure Env where
  /-- Function `os.ReadFile(filename)`. -/
  ReadFile : GoString → Except Error Bytes
  /-- Function `yaml.Unmarshal(data, &config)` on a zero `Config`. -/
  yamlUnmarshalConfig : Bytes → Except Error Config
  /-- Function `xml.Marshal(syncRequest)`. -/
  xmlMarshalFolderSyncRequest : FolderSyncRequest → Except Error Bytes
  /-- Function `xml.Marshal(event)`. -/
  xmlMarshalEvent : Event → Except Error Bytes
  /-- The error of `http.NewRequest(method, url, body)`, which depends on the
  method and the URL only. -/
  NewRequestError : GoString → GoString → Option Error
  /-- Method `client.Do(req)`: the server's answer, or a transport error. -/
  Do : Request → Except Error Response
  /-- Function `xml.Unmarshal(body, &folderSyncResp)` on a zero value. -/
  xmlUnmarshalFolderSyncResponse : Bytes → Except Error FolderSyncResponse
  /-- Function `xml.Unmarshal(body, &syncResp)` on a zero value. -/
  xmlUnmarshalSyncResponse : Bytes → Except Error SyncResponse
  /-- Function `os.WriteFile(filename, data, perm)`. -/
  WriteFile : GoString → Bytes → Nat → Option Error
  /-- The `n`-th reading of `time.Now()` in a run, counted from 0. -/
  Now : Nat → Time
  /-- Method `t.String()` of `time.Time`. -/
  TimeString : Time → GoString

/-- Function `http.NewRequest(method, url, body)`. -/
def NewRequest (env : Env) (method url : GoString) (body : Bytes) : Except Error Request :=
  match env.NewRequestError method url with
  | some err => .error err
  | none => .ok { Method := method, URL := url, Body := body, BasicAuth := none, Header := [] }

/-- Function `io.ReadAll(resp.Body)`. -/
def ReadAll (resp : Response) : Except Error Bytes := resp.Body

/-- What a run does to the world, and the calls `main` makes on the way. -/
inductive Effect where
  /-- Function `main` calls `loadConfig(filename)`. -/
  | callLoadConfig (filename : GoString)
  /-- Function `os.ReadFile` is run on `filename`. -/
  | ReadFile (filename : GoString)
  /-- Function `log.Fatalf` prints and ends the process. -/
  | Fatalf
  /-- Function `main` calls `getFolders(config)`. -/
  | callGetFolders (config : Config)
  /-- The request is sent with `client.Do`. -/
  | Do (req : Request)
  /-- Function `main` calls `saveFoldersToJSON(folders, filename)`. -/
  | callSaveFoldersToJSON (folders : Slice Folder) (filename : GoString)
  /-- Function `os.WriteFile` is run. -/
  | WriteFile (filename : GoString) (data : Bytes) (perm : Nat)
  /-- Function `main` calls `createEvent(config, calendarID, event)`. -/
  | callCreateEvent (config : Config) (calendarID : GoString) (event : Event)
deriving DecidableEq, Repr

/-! ## `loadConfig`, `getFolders`, `createEvent` -/

/-- Function `loadConfig` (main.go 56-69). -/
def loadConfig (env : Env) (filename : GoString) : List Effect × Except Error Config :=
  match env.ReadFile filename with
  | .error err => ([.ReadFile filename], .error err)
  | .ok data =>
    match env.yamlUnmarshalConfig data with
    | .error err => ([.ReadFile filename], .error err)
    | .ok config => ([.ReadFile filename], .ok config)

/-- The URL `getFolders` builds (main.go 80). -/
def folderSyncURL (config : Config) : GoString :=
  config.ExchangeURL ++ str "?Cmd=FolderSync&User=" ++ config.Username ++ str "&DeviceId="
    ++ config.DeviceID ++ str "&DeviceType=SmartPhone"

/-- The URL `createEvent` builds (main.go 126). -/
def syncURL (config : Config) : GoString :=
  config.ExchangeURL ++ str "?Cmd=Sync&User=" ++ config.Username ++ str "&DeviceId="
    ++ config.DeviceID ++ str "&DeviceType=SmartPhone"

/-- Function `getFolders` (main.go 71-108). -/
def getFolders (env : Env) (config : Config) : List Effect × Except Error (Slice Folder) :=
  let syncRequest : FolderSyncRequest := { SyncKey := str "0" }
  match env.xmlMarshalFolderSyncRequest syncRequest with
  | .error err => ([], .error err)
  | .ok requestBody =>
    match NewRequest env (str "POST") (folderSyncURL config) requestBody with
    | .error err => ([], .error err)
    | .ok req =>
      let req := req.SetBasicAuth config.Username config.Password
      let req := req.HeaderSet (str "Content-Type") (str "application/vnd.ms-sync.wbxml")
      match env.Do req with
      | .error err => ([.Do req], .error err)
      | .ok resp =>
        match ReadAll resp with
        | .error err => ([.Do req], .error err)
        | .ok body =>
          match env.xmlUnmarshalFolderSyncResponse body with
          | .error err => ([.Do req], .error err)
          | .ok folderSyncResp => ([.Do req], .ok folderSyncResp.Folders)

/-- Function `createEvent` (main.go 119-159).  The variable `err` of the source
is kept: line 155 returns it after the nil check of line 150. -/
def createEvent (env : Env) (config : Config) (calendarID : GoString) (event : Event) :
    List Effect × Option Error :=
  let _ := calendarID
  match env.xmlMarshalEvent event with
  | .error err => ([], some err)
  | .ok eventXML =>
    match NewRequest env (str "POST") (syncURL config) eventXML with
    | .error err => ([], some err)
    | .ok req =>
      let req := req.SetBasicAuth config.Username config.Password
      let req := req.HeaderSet (str "Content-Type") (str "application/vnd.ms-sync.wbxml")
      match env.Do req with
      | .error err => ([.Do req], some err)
      | .ok resp =>
        match ReadAll resp with
        | .error err => ([.Do req], some err)
        | .ok body =>
          match env.xmlUnmarshalSyncResponse body with
          | .error err => ([.Do req], some err)
          | .ok syncResp =>
            let err : Option Error := none
            if syncResp.Status ≠ 1 then ([.Do req], err) else ([.Do req], none)

/-! ## The filtering loop of `main` -/

/-- The loop of main.go 174-179: `calendars` starts as the empty non-nil slice
and every folder whose `Type` equals the marker is appended to it. -/
def filterCalendars (folders : Slice Folder) (calendarFolderType : GoString) : List Folder :=
  folders.elems.foldl
    (fun calendars folder =>
      if folder.Type_ = calendarFolderType then calendars ++ [folder] else calendars)
    []

/-! ## `encoding/json`: what `json.MarshalIndent` writes for a `[]Folder`

The encoder is outside `main.go`; it is written out here after the Go
standard library (`encoding/json`, `unicode/utf8`), because the bytes of
`calendars.json` are what it produces. -/

/-- Constant `utf8.RuneError`, the replacement character U+FFFD. -/
def RuneError : Nat := 0xFFFD

/-- Table `first` of `unicode/utf8`: information about the first byte of a
UTF-8 sequence.  `0xF0` is ASCII, `0xF1` is invalid, otherwise the low three
bits are the size and the high four bits index `acceptRanges`. -/
def first (b : Byte) : Nat :=
  if b.val < 0x80 then 0xF0
  else if b.val < 0xC2 then 0xF1
  else if b.val < 0xE0 then 0x02
  else if b.val = 0xE0 then 0x13
  else if b.val < 0xED then 0x03
  else if b.val = 0xED then 0x23
  else if b.val < 0xF0 then 0x03
  else if b.val = 0xF0 then 0x34
  else if b.val < 0xF4 then 0x04
  else if b.val = 0xF4 then 0x44
  else 0xF1

/-- Table `acceptRanges` of `unicode/utf8`: the range of valid second bytes. -/
def acceptRanges (i : Nat) : Nat × Nat :=
  match i with
  | 0 => (0x80, 0xBF)
  | 1 => (0xA0, 0xBF)
  | 2 => (0x80, 0x9F)
  | 3 => (0x90, 0xBF)
  | 4 => (0x80, 0x8F)
  | _ => (0, 0)

/-- Function `utf8.DecodeRuneInString` (and `utf8.DecodeRune`): the first rune
of `s` and its width in bytes; `(RuneError, 1)` for an invalid encoding.  The
masks and shifts of the source are written as `%` and `*`: `s0 & 0x1F` is
`s0 % 32`, `x << 6` is `x * 64`, and the operands of `|` share no bit. -/
def DecodeRune (s : List Byte) : Nat × Nat :=
  match s with
  | [] => (RuneError, 0)
  | s0 :: t0 =>
    let x := first s0
    if x ≥ 0xF0 then
      -- the mask `rune(x) << 31 >> 31` of the source is all ones exactly when `x` is odd
      (if x % 2 = 0 then s0.val else RuneError, 1)
    else
      let sz := x % 8
      let accept := acceptRanges (x / 16)
      if s.length < sz then (RuneError, 1)
      else
        match t0 with
        | [] => (RuneError, 1)
        | s1 :: t1 =>
          if s1.val < accept.1 ∨ accept.2 < s1.val then (RuneError, 1)
          else if sz ≤ 2 then ((s0.val % 32) * 64 + s1.val % 64, 2)
          else
            match t1 with
            | [] => (RuneError, 1)
            | s2 :: t2 =>
              if s2.val < 0x80 ∨ 0xBF < s2.val then (RuneError, 1)
              else if sz ≤ 3 then
                ((s0.val % 16) * 4096 + (s1.val % 64) * 64 + s2.val % 64, 3)
              else
                match t2 with
                | [] => (RuneError, 1)
                | s3 :: _ =>
                  if s3.val < 0x80 ∨ 0xBF < s3.val then (RuneError, 1)
                  else
                    ((s0.val % 8) * 262144 + (s1.val % 64) * 4096 + (s2.val % 64) * 64
                      + s3.val % 64, 4)

/-- String `hex` of `encoding/json`: the digit `"0123456789abcdef"[n]`. -/
def hex (n : Nat) : Byte :=
  if n < 10 then Fin.ofNat (0x30 + n) else Fin.ofNat (0x61 + (n - 10))

/-- Table `htmlSafeSet` of `encoding/json`: the ASCII bytes written as they
are: all from the space on except `"`, `&`, `<`, `>` and the backslash. -/
def htmlSafeSet (b : Byte) : Bool :=
  decide (0x20 ≤ b.val ∧ b.val < 0x80 ∧ b.val ≠ 0x22 ∧ b.val ≠ 0x26 ∧ b.val ≠ 0x3C
    ∧ b.val ≠ 0x3E ∧ b.val ≠ 0x5C)

/-- The escape `appendString` writes for an ASCII byte outside `htmlSafeSet`
(the `switch` of the source, with the short escapes for backspace and form feed
that Go has written since version 1.22). -/
def escapeByte (b : Byte) : Bytes :=
  if b.val = 0x5C ∨ b.val = 0x22 then [0x5C, b]
  else if b.val = 0x08 then [0x5C, 0x62]
  else if b.val = 0x0C then [0x5C, 0x66]
  else if b.val = 0x0A then [0x5C, 0x6E]
  else if b.val = 0x0D then [0x5C, 0x72]
  else if b.val = 0x09 then [0x5C, 0x74]
  else [0x5C, 0x75, 0x30, 0x30, hex (b.val / 16), hex (b.val % 16)]

/-- The loop of `appendString` (with `escapeHTML` set), on the rest `src[i:]` of
the string.  Every turn of the loop consumes at least one byte, so
`fuel = len(src[i:])` turns are enough; `appendString` starts it so. -/
def appendStringLoop : Nat → List Byte → Bytes
  | 0, _ => []
  | _, [] => []
  | fuel + 1, b :: rest =>
    if b.val < 0x80 then
      if htmlSafeSet b then b :: appendStringLoop fuel rest
      else escapeByte b ++ appendStringLoop fuel rest
    else
      let (c, size) := DecodeRune (b :: rest)
      if c = RuneError ∧ size = 1 then
        str "\\ufffd" ++ appendStringLoop fuel rest
      else if c = 0x2028 ∨ c = 0x2029 then
        [0x5C, 0x75, 0x32, 0x30, 0x32, hex (c % 16)]
          ++ appendStringLoop fuel (rest.drop (size - 1))
      else
        (b :: rest).take size ++ appendStringLoop fuel (rest.drop (size - 1))

/-- Function `appendString` of `encoding/json` with `escapeHTML` set: the JSON
string literal for a Go string. -/
def appendString (src : GoString) : Bytes :=
  [0x22] ++ appendStringLoop src.length src ++ [0x22]

/-- Function `appendNewline` of `encoding/json` for the prefix `""` and the
indent of two spaces. -/
def appendNewline (depth : Nat) : Bytes :=
  0x0A :: (List.replicate depth (str "  ")).flatten

/-- One `Folder` as `json.MarshalIndent` writes it inside the array: the
exported fields in declaration order under their Go names (the struct has no
`json` tags). -/
def marshalIndentFolder (f : Folder) : Bytes :=
  [0x7B] ++ appendNewline 2 ++ str "\"DisplayName\": " ++ appendString f.DisplayName
    ++ [0x2C] ++ appendNewline 2 ++ str "\"Type\": " ++ appendString f.Type_
    ++ [0x2C] ++ appendNewline 2 ++ str "\"FolderID\": " ++ appendString f.FolderID
    ++ appendNewline 1 ++ [0x7D]

/-- The elements of a non-empty array, each after a line break at depth 1,
separated by commas. -/
def marshalIndentElems : List Folder → Bytes
  | [] => []
  | [f] => appendNewline 1 ++ marshalIndentFolder f
  | f :: g :: rest =>
    appendNewline 1 ++ marshalIndentFolder f ++ [0x2C] ++ marshalIndentElems (g :: rest)

/-- The document `json.MarshalIndent(folders, "", "  ")` produces for a
`[]Folder`: `null` for the nil slice, `[]` for an empty one, else one object
per folder. -/
def indentedJSON (folders : Slice Folder) : Bytes :=
  match folders with
  | none => str "null"
  | some [] => str "[]"
  | some (f :: rest) => [0x5B] ++ marshalIndentElems (f :: rest) ++ appendNewline 0 ++ [0x5D]

/-- Function `json.MarshalIndent(folders, "", "  ")` for a `[]Folder`; it has no
error for this type. -/
def jsonMarshalIndent (folders : Slice Folder) : Except Error Bytes :=
  .ok (indentedJSON folders)

/-! ## `saveFoldersToJSON` and `main` -/

/-- Function `saveFoldersToJSON` (main.go 110-117). -/
def saveFoldersToJSON (env : Env) (folders : Slice Folder) (filename : GoString) :
    List Effect × Option Error :=
  match jsonMarshalIndent folders with
  | .error err => ([], some err)
  | .ok data => ([.WriteFile filename data 0o644], env.WriteFile filename data 0o644)

/-- How the process ends: `main` returns, or `os.Exit(code)` inside `log.Fatalf`. -/
inductive Exit where
  | returned
  | exited (code : Nat)
deriving DecidableEq, Repr

/-- Constant `time.Hour`, in nanoseconds. -/
def Hour : Int := 3600 * 1000000000

/-- The event `main` builds (main.go 186-192): the clock is read twice. -/
def mainEvent (env : Env) : Event :=
  { Subject := str "test"
    StartTime := env.TimeString (env.Now 0)
    EndTime := env.TimeString (env.Now 1 + Hour * 3)
    Description := str "djhfbchjbchb"
    Location := str "home" }

/-- Function `main` (main.go 161-201): the effects of a run, the calls of the
four functions among them, and how the process ends. -/
def main (env : Env) : List Effect × Exit :=
  let filename := str "example-config.yaml"
  match loadConfig env filename with
  | (e1, .error _) => ([.callLoadConfig filename] ++ e1 ++ [.Fatalf], .exited 1)
  | (e1, .ok config) =>
    match getFolders env config with
    | (e2, .error _) =>
      ([.callLoadConfig filename] ++ e1 ++ [.callGetFolders config] ++ e2, .returned)
    | (e2, .ok folders) =>
      let calendars := filterCalendars folders config.CalendarFolderType
      match saveFoldersToJSON env (some calendars) (str "calendars.json") with
      | (e3, some _) =>
        ([.callLoadConfig filename] ++ e1 ++ [.callGetFolders config] ++ e2
          ++ [.callSaveFoldersToJSON (some calendars) (str "calendars.json")] ++ e3, .returned)
      | (e3, none) =>
        let event := mainEvent env
        if h : calendars.length > 0 then
          match createEvent env config calendars[0].FolderID event with
          | (e4, some _) =>
            ([.callLoadConfig filename] ++ e1 ++ [.callGetFolders config] ++ e2
              ++ [.callSaveFoldersToJSON (some calendars) (str "calendars.json")] ++ e3
              ++ [.callCreateEvent config calendars[0].FolderID event] ++ e4, .returned)
          | (e4, none) =>
            ([.callLoadConfig filename] ++ e1 ++ [.callGetFolders config] ++ e2
              ++ [.callSaveFoldersToJSON (some calendars) (str "calendars.json")] ++ e3
              ++ [.callCreateEvent config calendars[0].FolderID event] ++ e4, .returned)
        else
          ([.callLoadConfig filename] ++ e1 ++ [.callGetFolders config] ++ e2
            ++ [.callSaveFoldersToJSON (some calendars) (str "calendars.json")] ++ e3, .returned)

/-! ## `net/url`: how the query of the request URL is decoded -/

/-- Function `strings.Cut(s, sep)` for a one-byte separator: the text before
the first `sep`, the text after it, and whether `sep` occurs. -/
def Cut (sep : Byte) : GoString → GoString × GoString × Bool
  | [] => ([], [], false)
  | b :: rest =>
    if b = sep then ([], rest, true)
    else
      let (before, after, found) := Cut sep rest
      (b :: before, after, found)

/-- Field `RawQuery` of `url.Parse(rawURL)`: the fragment is cut off at the
first `#`, and the query is what follows the first `?` of the rest. -/
def RawQuery (rawURL : GoString) : GoString :=
  (Cut 0x3F (Cut 0x23 rawURL).1).2.1

/-- Function `unhex` of `net/url`: the value of a hexadecimal digit. -/
def unhex (c : Byte) : Option Nat :=
  if 0x30 ≤ c.val ∧ c.val ≤ 0x39 then some (c.val - 0x30)
  else if 0x61 ≤ c.val ∧ c.val ≤ 0x66 then some (c.val - 0x61 + 10)
  else if 0x41 ≤ c.val ∧ c.val ≤ 0x46 then some (c.val - 0x41 + 10)
  else none

/-- Function `url.QueryUnescape`: `%XX` becomes the byte `XX`, `+` a space;
`none` for a `%` that is not followed by two hexadecimal digits. -/
def QueryUnescape : GoString → Option GoString
  | [] => some []
  | c :: rest =>
    if c.val = 0x25 then
      match rest with
      | h1 :: h2 :: rest2 =>
        match unhex h1, unhex h2, QueryUnescape rest2 with
        | some a, some b, some t => some (Fin.ofNat (a * 16 + b) :: t)
        | _, _, _ => none
      | _ => none
    else if c.val = 0x2B then (QueryUnescape rest).map (fun t => 0x20 :: t)
    else (QueryUnescape rest).map (fun t => c :: t)

/-- The loop of `parseQuery` of `net/url` over the `&`-separated pieces of the
query: the parameters in order of appearance, and whether an error is set. -/
def parseQueryPieces : List GoString → List (GoString × GoString) × Bool
  | [] => ([], false)
  | key :: pieces =>
    let (m, err) := parseQueryPieces pieces
    if (0x3B : Byte) ∈ key then (m, true)
    else if key = [] then (m, err)
    else
      let (key, value, _) := Cut 0x3D key
      match QueryUnescape key with
      | none => (m, true)
      | some key =>
        match QueryUnescape value with
        | none => (m, true)
        | some value => ((key, value) :: m, err)

/-- Function `url.ParseQuery(query)`: the decoded parameters in order of
appearance, and whether the function returns an error. -/
def ParseQuery (query : GoString) : List (GoString × GoString) × Bool :=
  parseQueryPieces (if query = [] then [] else query.splitOn 0x26)

/-- No byte of the string changes how a query is split or unescaped: none
is `&`, `;`, `+`, `%` or `#`. -/
def QuerySafe (s : GoString) : Prop :=
  ∀ b ∈ s, b ≠ (0x26 : Byte) ∧ b ≠ (0x3B : Byte) ∧ b ≠ (0x2B : Byte) ∧ b ≠ (0x25 : Byte)
    ∧ b ≠ (0x23 : Byte)

/-! ## `encoding/json`: reading the document back

`main.go` never reads `calendars.json`.  Re-parsing it is modelled after
`json.Unmarshal(data, &folders)` for a `[]Folder` of the Go standard
library.  The model covers the documents made of strings: `null`, or an array
whose elements are `null` or objects whose members are string literals or
`null`, with any white space between the tokens, members in any order, and
keys matched exactly.  Other JSON values, which Go skips or rejects with a
type error, are an error here. -/

/-- Function `utf8.EncodeRune`: the UTF-8 encoding of a rune; that of U+FFFD
for a surrogate or a value beyond U+10FFFF.  The shifts and masks of the source
are written as `/` and `%`. -/
def EncodeRune (r : Nat) : List Byte :=
  if r ≤ 0x7F then [Fin.ofNat r]
  else if r ≤ 0x7FF then [Fin.ofNat (0xC0 + r / 64), Fin.ofNat (0x80 + r % 64)]
  else if r < 0xD800 ∨ (0xDFFF < r ∧ r ≤ 0xFFFF) then
    [Fin.ofNat (0xE0 + r / 4096), Fin.ofNat (0x80 + r / 64 % 64), Fin.ofNat (0x80 + r % 64)]
  else if 0xFFFF < r ∧ r ≤ 0x10FFFF then
    [Fin.ofNat (0xF0 + r / 262144), Fin.ofNat (0x80 + r / 4096 % 64),
      Fin.ofNat (0x80 + r / 64 % 64), Fin.ofNat (0x80 + r % 64)]
  else [0xEF, 0xBF, 0xBD]

/-- Function `utf8.ValidString`, by `DecodeRune`: every rune of the rest of the
string decodes without error.  `fuel = len(s)` turns are enough. -/
def validLoop : Nat → List Byte → Bool
  | _, [] => true
  | 0, _ :: _ => false
  | fuel + 1, b :: rest =>
    let (r, size) := DecodeRune (b :: rest)
    if r = RuneError ∧ size = 1 then false else validLoop fuel (rest.drop (size - 1))

/-- Function `utf8.ValidString`: the string is made of valid UTF-8 encodings. -/
def ValidString (s : GoString) : Bool := validLoop s.length s

/-- Function `getu4` of `encoding/json`: the rune of a `\uXXXX` escape at the
start of `s`, `none` (the source's -1) if there is none. -/
def getu4 (s : Bytes) : Option Nat :=
  match s with
  | b0 :: b1 :: c0 :: c1 :: c2 :: c3 :: _ =>
    if b0.val = 0x5C ∧ b1.val = 0x75 then
      match unhex c0, unhex c1, unhex c2, unhex c3 with
      | some d0, some d1, some d2, some d3 => some (((d0 * 16 + d1) * 16 + d2) * 16 + d3)
      | _, _, _, _ => none
    else none
  | _ => none

/-- Function `utf16.IsSurrogate`. -/
def IsSurrogate (r : Nat) : Bool := decide (0xD800 ≤ r ∧ r < 0xE000)

/-- Function `utf16.DecodeRune`: the rune of a surrogate pair, U+FFFD if the
pair is not valid; `r2` is `none` when `getu4` found no second escape. -/
def utf16DecodeRune (r1 : Nat) (r2 : Option Nat) : Nat :=
  match r2 with
  | some r2 =>
    if 0xD800 ≤ r1 ∧ r1 < 0xDC00 ∧ 0xDC00 ≤ r2 ∧ r2 < 0xE000 then
      (r1 - 0xD800) * 1024 + (r2 - 0xDC00) + 0x10000
    else 0xFFFD
  | none => 0xFFFD

/-- Puts decoded bytes in front of the result of the rest of a literal. -/
def prepend (bs : List Byte) (r : Option (GoString × Bytes)) : Option (GoString × Bytes) :=
  r.map fun (s, rest) => (bs ++ s, rest)

/-- The body of a string literal, after its opening quote: the decoded string
(function `unquoteBytes` of `encoding/json`) and the input after the closing
quote; `none` for what the scanner or `unquoteBytes` rejects.  Every turn
consumes at least one byte, so `fuel = len(data)` turns are enough. -/
def unquoteLoop : Nat → Bytes → Option (GoString × Bytes)
  | 0, _ => none
  | _, [] => none
  | fuel + 1, c :: rest =>
    if c.val = 0x22 then some ([], rest)
    else if c.val = 0x5C then
      match rest with
      | [] => none
      | e :: rest2 =>
        if e.val = 0x22 ∨ e.val = 0x5C ∨ e.val = 0x2F then prepend [e] (unquoteLoop fuel rest2)
        else if e.val = 0x62 then prepend [0x08] (unquoteLoop fuel rest2)
        else if e.val = 0x66 then prepend [0x0C] (unquoteLoop fuel rest2)
        else if e.val = 0x6E then prepend [0x0A] (unquoteLoop fuel rest2)
        else if e.val = 0x72 then prepend [0x0D] (unquoteLoop fuel rest2)
        else if e.val = 0x74 then prepend [0x09] (unquoteLoop fuel rest2)
        else if e.val = 0x75 then
          match getu4 (c :: rest) with
          | none => none
          | some rr =>
            if IsSurrogate rr then
              let dec := utf16DecodeRune rr (getu4 (rest.drop 5))
              if dec ≠ 0xFFFD then prepend (EncodeRune dec) (unquoteLoop fuel (rest.drop 11))
              else prepend (EncodeRune 0xFFFD) (unquoteLoop fuel (rest.drop 5))
            else prepend (EncodeRune rr) (unquoteLoop fuel (rest.drop 5))
        else none
    else if c.val < 0x20 then none
    else if c.val < 0x80 then prepend [c] (unquoteLoop fuel rest)
    else
      let (rr, size) := DecodeRune (c :: rest)
      prepend (EncodeRune rr) (unquoteLoop fuel (rest.drop (size - 1)))

/-- White space between JSON tokens: space, tab, carriage return, line feed. -/
def isSpace (c : Byte) : Bool :=
  decide (c.val = 0x20 ∨ c.val = 0x09 ∨ c.val = 0x0D ∨ c.val = 0x0A)

/-- The input after the white space at its start. -/
def skipSpace : Bytes → Bytes
  | [] => []
  | c :: rest => if isSpace c then skipSpace rest else c :: rest

/-- A string literal at the start of the input: the decoded string and the
input after it. -/
def parseString (data : Bytes) : Option (GoString × Bytes) :=
  match data with
  | [] => none
  | c :: rest => if c.val = 0x22 then unquoteLoop rest.length rest else none

/-- The value of a member that is stored in a `string` field: a string
literal, or `null`, which leaves the field as it is. -/
def parseStringValue (data : Bytes) : Option (Option GoString × Bytes) :=
  if data.take 4 = str "null" then some (none, data.drop 4)
  else (parseString data).map fun (s, rest) => (some s, rest)

/-- Stores the value of the member `key` in the field of that name; a key
that names no field is ignored. -/
def setField (v : Folder) (key : GoString) (value : Option GoString) : Folder :=
  match value with
  | none => v
  | some s =>
    if key = str "DisplayName" then { v with DisplayName := s }
    else if key = str "Type" then { v with Type_ := s }
    else if key = str "FolderID" then { v with FolderID := s }
    else v

/-- The members of an object, from a key on, up to the closing brace. -/
def objectLoop : Nat → Folder → Bytes → Option (Folder × Bytes)
  | 0, _, _ => none
  | fuel + 1, v, data =>
    match parseString (skipSpace data) with
    | none => none
    | some (key, rest) =>
      match skipSpace rest with
      | [] => none
      | c :: rest =>
        if c.val ≠ 0x3A then none
        else
          match parseStringValue (skipSpace rest) with
          | none => none
          | some (value, rest) =>
            let v := setField v key value
            match skipSpace rest with
            | [] => none
            | c :: rest =>
              if c.val = 0x2C then objectLoop fuel v rest
              else if c.val = 0x7D then some (v, rest)
              else none

/-- An element of the array: an object, decoded into a zero `Folder`, or
`null`, which leaves the element zero. -/
def parseElement (data : Bytes) : Option (Folder × Bytes) :=
  if data.take 4 = str "null" then some ({ DisplayName := [], Type_ := [], FolderID := [] }, data.drop 4)
  else
    match data with
    | [] => none
    | c :: rest =>
      if c.val ≠ 0x7B then none
      else
        match skipSpace rest with
        | [] => none
        | c2 :: rest2 =>
          if c2.val = 0x7D then some ({ DisplayName := [], Type_ := [], FolderID := [] }, rest2)
          else objectLoop rest.length { DisplayName := [], Type_ := [], FolderID := [] } rest

/-- The elements of a non-empty array, up to the closing bracket. -/
def arrayLoop : Nat → Bytes → Option (List Folder × Bytes)
  | 0, _ => none
  | fuel + 1, data =>
    match parseElement (skipSpace data) with
    | none => none
    | some (f, rest) =>
      match skipSpace rest with
      | [] => none
      | c :: rest =>
        if c.val = 0x2C then (arrayLoop fuel rest).map fun (fs, rest) => (f :: fs, rest)
        else if c.val = 0x5D then some ([f], rest)
        else none

/-- Function `json.Unmarshal(data, &folders)` for a nil `folders []Folder`:
`null` leaves the nil slice, `[]` gives an empty slice, an array gives its
elements; nothing but white space may follow the value. -/
def jsonUnmarshal (data : Bytes) : Except Error (Slice Folder) :=
  let data := skipSpace data
  if data.take 4 = str "null" then
    if skipSpace (data.drop 4) = [] then .ok none else .error "invalid character after top-level value"
  else
    match data with
    | [] => .error "unexpected end of JSON input"
    | c :: rest =>
      if c.val ≠ 0x5B then .error "cannot unmarshal into Go value of type []main.Folder"
      else
        match skipSpace rest with
        | [] => .error "unexpected end of JSON input"
        | c2 :: rest2 =>
          if c2.val = 0x5D then
            if skipSpace rest2 = [] then .ok (some []) else .error "invalid character after top-level value"
          else
            match arrayLoop rest.length rest with
            | none => .error "invalid JSON for []main.Folder"
            | some (fs, rest3) =>
              if skipSpace rest3 = [] then .ok (some fs)
              else .error "invalid character after top-level value"

/-! ## Notions used to state the properties -/

/-- The request `getFolders` hands to `client.Do` once `xml.Marshal` has
returned `requestBody`. -/
def folderSyncRequest (config : Config) (requestBody : Bytes) : Request :=
  { Method := str "POST"
    URL := folderSyncURL config
    Body := requestBody
    BasicAuth := some (config.Username, config.Password)
    Header := [(str "Content-Type", str "application/vnd.ms-sync.wbxml")] }

/-- The request `createEvent` hands to `client.Do` once `xml.Marshal` has
returned `eventXML`. -/
def syncRequest (config : Config) (eventXML : Bytes) : Request :=
  { Method := str "POST"
    URL := syncURL config
    Body := eventXML
    BasicAuth := some (config.Username, config.Password)
    Header := [(str "Content-Type", str "application/vnd.ms-sync.wbxml")] }

/-- Every string of the folder is valid UTF-8. -/
def Folder.Valid (f : Folder) : Prop :=
  ValidString f.DisplayName = true ∧ ValidString f.Type_ = true ∧ ValidString f.FolderID = true

/-- The configuration file is read and parsed into `config`. -/
def ConfigLoaded (env : Env) (config : Config) : Prop :=
  ∃ data, env.ReadFile (str "example-config.yaml") = .ok data
    ∧ env.yamlUnmarshalConfig data = .ok config

/-- The FolderSync request of `config`, with body `requestBody`, is built and
sent, and the server answers it with a body that parses into `r`: a
well-formed FolderSync response. -/
def FolderSyncAnswered (env : Env) (config : Config) (requestBody : Bytes)
    (r : FolderSyncResponse) : Prop :=
  env.xmlMarshalFolderSyncRequest { SyncKey := str "0" } = .ok requestBody
    ∧ env.NewRequestError (str "POST") (folderSyncURL config) = none
    ∧ ∃ resp body, env.Do (folderSyncRequest config requestBody) = .ok resp
        ∧ resp.Body = .ok body ∧ env.xmlUnmarshalFolderSyncResponse body = .ok r

/-- The Sync request of `config` for `event`, with body `eventXML`, is built
and sent, and the server answers it with a body that parses into `r`: a
well-formed event-creation response. -/
def SyncAnswered (env : Env) (config : Config) (event : Event) (eventXML : Bytes)
    (r : SyncResponse) : Prop :=
  env.xmlMarshalEvent event = .ok eventXML
    ∧ env.NewRequestError (str "POST") (syncURL config) = none
    ∧ ∃ resp body, env.Do (syncRequest config eventXML) = .ok resp
        ∧ resp.Body = .ok body ∧ env.xmlUnmarshalSyncResponse body = .ok r

/-- The calls of `createEvent` in a trace, in order, with their arguments. -/
def createEventCalls (trace : List Effect) : List (Config × GoString × Event) :=
  trace.filterMap fun
    | .callCreateEvent config calendarID event => some (config, calendarID, event)
    | _ => none

/-- The file and network operations of a trace, in order. -/
def fileNetEffects (trace : List Effect) : List Effect :=
  trace.filter fun
    | .ReadFile _ => true
    | .Do _ => true
    | .WriteFile _ _ _ => true
    | _ => false

/-- The four steps of `main`. -/
inductive Step where
  | loadConfig
  | getFolders
  | saveFoldersToJSON
  | createEvent
deriving DecidableEq, Repr

/-- The steps `main` starts in a trace, in order. -/
def steps (trace : List Effect) : List Step :=
  trace.filterMap fun
    | .callLoadConfig _ => some .loadConfig
    | .callGetFolders _ => some .getFolders
    | .callSaveFoldersToJSON _ _ => some .saveFoldersToJSON
    | .callCreateEvent _ _ _ => some .createEvent
    | _ => none

/-- The effects of `main` up to and including the write of `calendars.json`. -/
def tracePersisted (env : Env) (config : Config) (calendars : List Folder) : List Effect :=
  [.callLoadConfig (str "example-config.yaml"), .ReadFile (str "example-config.yaml"),
    .callGetFolders config] ++ (getFolders env config).1
    ++ [.callSaveFoldersToJSON (some calendars) (str "calendars.json"),
      .WriteFile (str "calendars.json") (indentedJSON (some calendars)) 0o644]

/-! ## A stub world for concrete runs -/

/-- The configuration of the examples. -/
def exampleConfig : Config :=
  { ExchangeURL := str "https://mail.example.com/Microsoft-Server-ActiveSync"
    Username := str "alice"
    Password := str "secret"
    DeviceID := str "dev1"
    CalendarFolderType := str "8" }

def folderInbox : Folder := { DisplayName := str "Inbox", Type_ := str "2", FolderID := str "5" }

def folderCalendar : Folder :=
  { DisplayName := str "Calendar", Type_ := str "8", FolderID := str "1" }

def folderHolidays : Folder :=
  { DisplayName := str "Holidays", Type_ := str "8", FolderID := str "7" }

/-- A world in which every file operation succeeds, the configuration file
holds `config`, and the server answers the FolderSync request with `folderSync`
and the Sync request with `sync`. -/
def stubEnv (config : Config) (folderSync : FolderSyncResponse) (sync : SyncResponse) : Env :=
  { ReadFile := fun _ => .ok (str "yaml")
    yamlUnmarshalConfig := fun _ => .ok config
    xmlMarshalFolderSyncRequest := fun _ => .ok (str "<FolderSync><SyncKey>0</SyncKey></FolderSync>")
    xmlMarshalEvent := fun _ => .ok (str "<Calendar></Calendar>")
    NewRequestError := fun _ _ => none
    Do := fun req => .ok { Body := .ok req.URL }
    xmlUnmarshalFolderSyncResponse := fun _ => .ok folderSync
    xmlUnmarshalSyncResponse := fun _ => .ok sync
    WriteFile := fun _ _ _ => none
    Now := fun n => 1000 * n
    TimeString := fun _ => str "now" }

/-- The stub world with an unreadable configuration file. -/
def stubEnvNoConfig : Env :=
  { stubEnv exampleConfig ⟨1, str "1", some [folderCalendar]⟩ ⟨1, str "1"⟩ with
    ReadFile := fun _ => .error "no such file" }

/-- The stub world with a server that cannot be reached. -/
def stubEnvNoNetwork : Env :=
  { stubEnv exampleConfig ⟨1, str "1", some [folderCalendar]⟩ ⟨1, str "1"⟩ with
    Do := fun _ => .error "connection refused" }

/-- The stub world with a disk that cannot be written. -/
def stubEnvReadOnly : Env :=
  { stubEnv exampleConfig ⟨1, str "1", some [folderCalendar]⟩ ⟨1, str "1"⟩ with
    WriteFile := fun _ _ _ => some "read-only file system" }

def exampleEvent : Event :=
  { Subject := str "test", StartTime := str "now", EndTime := str "now",
    Description := str "djhfbchjbchb", Location := str "home" }

/-! ## The filtering loop -/

theorem foldl_append_filter (marker : GoString) (xs acc : List Folder) :
    xs.foldl (fun calendars folder =>
        if folder.Type_ = marker then calendars ++ [folder] else calendars) acc
      = acc ++ xs.filter (fun f => decide (f.Type_ = marker)) := by
  induction xs generalizing acc with
  | nil => simp
  | cons x xs ih =>
    by_cases h : x.Type_ = marker
    · simp [List.foldl_cons, ih, h]
    · simp [List.foldl_cons, ih, h]

theorem filterCalendars_eq_filter (folders : Slice Folder) (marker : GoString) :
    filterCalendars folders marker
      = folders.elems.filter (fun f => decide (f.Type_ = marker)) := by
  unfold filterCalendars
  rw [foldl_append_filter]
  simp

theorem filterCalendars_eq_nil (folders : Slice Folder) (marker : GoString)
    (hno : ∀ f ∈ folders.elems, f.Type_ ≠ marker) : filterCalendars folders marker = [] := by
  rw [filterCalendars_eq_filter, List.filter_eq_nil_iff]
  intro f hf
  simpa using hno f hf

/-- C2: the filtering loop of `main` yields exactly the sublist of the folders
whose `Type` equals the marker: it is the filter of the list by that test, so
a folder is kept if and only if it is in the list and matches, the kept folders
are a sublist (same relative order), every folder is kept with its
multiplicity, and when no folder matches the result is the empty list. -/
theorem filterCalendars_exact (folders : Slice Folder) (marker : GoString) :
    filterCalendars folders marker
        = folders.elems.filter (fun f => decide (f.Type_ = marker))
      ∧ (∀ f, f ∈ filterCalendars folders marker ↔ f ∈ folders.elems ∧ f.Type_ = marker)
      ∧ (filterCalendars folders marker).Sublist folders.elems
      ∧ (∀ f, (filterCalendars folders marker).count f
          = if f.Type_ = marker then folders.elems.count f else 0)
      ∧ ((∀ f ∈ folders.elems, f.Type_ ≠ marker) → filterCalendars folders marker = []) := by
  rw [filterCalendars_eq_filter]
  refine ⟨rfl, ?_, List.filter_sublist _, ?_, ?_⟩
  · intro f
    simp [List.mem_filter]
  · intro f
    by_cases h : f.Type_ = marker
    · simp [List.count_filter, h]
    · rw [if_neg h]
      apply List.count_eq_zero_of_not_mem
      simp [List.mem_filter, h]
  · intro hno
    rw [← filterCalendars_eq_filter]
    exact filterCalendars_eq_nil folders marker hno

theorem filterCalendars_exact_witness :
    filterCalendars (some [folderInbox, folderCalendar, folderHolidays]) (str "8")
        = [folderCalendar, folderHolidays]
      ∧ filterCalendars (some [folderInbox]) (str "8") = [] :=
  ⟨(filterCalendars_exact (some [folderInbox, folderCalendar, folderHolidays]) (str "8")).1.trans
      (by decide),
    (filterCalendars_exact (some [folderInbox]) (str "8")).2.2.2.2 (by decide)⟩

/-! ## `getFolders` and `createEvent` on a well-formed answer -/

theorem getFolders_of_answered (env : Env) (config : Config) (requestBody : Bytes)
    (r : FolderSyncResponse) (h : FolderSyncAnswered env config requestBody r) :
    getFolders env config = ([.Do (folderSyncRequest config requestBody)], .ok r.Folders) := by
  obtain ⟨hm, hn, resp, body, hd, hb, hx⟩ := h
  simp only [folderSyncRequest] at hd
  simp [getFolders, NewRequest, hm, hn, Request.SetBasicAuth, Request.HeaderSet, ReadAll,
    hd, hb, hx, folderSyncRequest]

theorem createEvent_of_answered (env : Env) (config : Config) (calendarID : GoString)
    (event : Event) (eventXML : Bytes) (r : SyncResponse)
    (h : SyncAnswered env config event eventXML r) :
    createEvent env config calendarID event = ([.Do (syncRequest config eventXML)], none) := by
  obtain ⟨hm, hn, resp, body, hd, hb, hx⟩ := h
  simp only [syncRequest] at hd
  simp [createEvent, NewRequest, hm, hn, Request.SetBasicAuth, Request.HeaderSet, ReadAll,
    hd, hb, hx, syncRequest]

theorem createEvent_effects (env : Env) (config : Config) (calendarID : GoString)
    (event : Event) :
    (createEvent env config calendarID event).1 = []
      ∨ ∃ eventXML, env.xmlMarshalEvent event = .ok eventXML
          ∧ (createEvent env config calendarID event).1 = [.Do (syncRequest config eventXML)] := by
  unfold createEvent NewRequest
  cases hm : env.xmlMarshalEvent event with
  | error err => simp
  | ok eventXML =>
    cases hn : env.NewRequestError (str "POST") (syncURL config) with
    | some err => simp
    | none =>
      right
      refine ⟨eventXML, rfl, ?_⟩
      simp only [Request.SetBasicAuth, Request.HeaderSet, ReadAll, syncRequest]
      repeat' split
      all_goals simp

/-- C1: at the well-formed event-creation response with `Status` 3,
`createEvent` returns the nil error, as it does for `Status` 1: line 155 returns
the variable `err`, which is nil once `xml.Unmarshal` has succeeded. -/
theorem createEvent_status3_returns_nil :
    SyncAnswered (stubEnv exampleConfig ⟨1, str "1", none⟩ ⟨3, str "1"⟩) exampleConfig
        exampleEvent (str "<Calendar></Calendar>") ⟨3, str "1"⟩
      ∧ (createEvent (stubEnv exampleConfig ⟨1, str "1", none⟩ ⟨3, str "1"⟩) exampleConfig
          (str "1") exampleEvent).2 = none
      ∧ (createEvent (stubEnv exampleConfig ⟨1, str "1", none⟩ ⟨1, str "1"⟩) exampleConfig
          (str "1") exampleEvent).2 = none := by
  refine ⟨⟨rfl, rfl, _, _, rfl, rfl, rfl⟩, ?_, ?_⟩
  · rw [createEvent_of_answered _ _ _ _ (str "<Calendar></Calendar>") ⟨3, str "1"⟩
      ⟨rfl, rfl, _, _, rfl, rfl, rfl⟩]
  · rw [createEvent_of_answered _ _ _ _ (str "<Calendar></Calendar>") ⟨1, str "1"⟩
      ⟨rfl, rfl, _, _, rfl, rfl, rfl⟩]

/-- C3 as stated fails: for the well-formed response with status 1 and the three
folders Inbox (type 2), Calendar and Holidays (type 8), and the configured
type 8, `getFolders` returns all three folders, Inbox among them. -/
theorem getFolders_returns_other_types :
    FolderSyncAnswered
        (stubEnv exampleConfig ⟨1, str "1", some [folderInbox, folderCalendar, folderHolidays]⟩
          ⟨1, str "1"⟩)
        exampleConfig (str "<FolderSync><SyncKey>0</SyncKey></FolderSync>")
        ⟨1, str "1", some [folderInbox, folderCalendar, folderHolidays]⟩
      ∧ (getFolders
          (stubEnv exampleConfig ⟨1, str "1", some [folderInbox, folderCalendar, folderHolidays]⟩
            ⟨1, str "1"⟩) exampleConfig).2
          = .ok (some [folderInbox, folderCalendar, folderHolidays])
      ∧ folderInbox.Type_ ≠ exampleConfig.CalendarFolderType := by
  refine ⟨⟨rfl, rfl, _, _, rfl, rfl, rfl⟩, ?_, by decide⟩
  rw [getFolders_of_answered _ _ (str "<FolderSync><SyncKey>0</SyncKey></FolderSync>")
    ⟨1, str "1", some [folderInbox, folderCalendar, folderHolidays]⟩
    ⟨rfl, rfl, _, _, rfl, rfl, rfl⟩]

/-- C3 amended: for every well-formed FolderSync response, `getFolders` returns
all the folders of the response, in their order and whatever their type, with
no error; the loop of `main` run on that result keeps exactly the folders
whose `Type` equals the configured `calendar_folder_type`, in their order. -/
theorem getFolders_then_filter (env : Env) (config : Config) (requestBody : Bytes)
    (r : FolderSyncResponse) (h : FolderSyncAnswered env config requestBody r) :
    (getFolders env config).2 = .ok r.Folders
      ∧ ∀ folders, (getFolders env config).2 = .ok folders →
          filterCalendars folders config.CalendarFolderType
            = r.Folders.elems.filter (fun f => decide (f.Type_ = config.CalendarFolderType)) := by
  rw [getFolders_of_answered env config requestBody r h]
  refine ⟨rfl, ?_⟩
  intro folders hf
  cases hf
  exact filterCalendars_eq_filter _ _

theorem getFolders_then_filter_witness :
    (getFolders
        (stubEnv exampleConfig ⟨1, str "1", some [folderInbox, folderCalendar, folderHolidays]⟩
          ⟨1, str "1"⟩) exampleConfig).2
        = .ok (some [folderInbox, folderCalendar, folderHolidays])
      ∧ filterCalendars (some [folderInbox, folderCalendar, folderHolidays])
          exampleConfig.CalendarFolderType = [folderCalendar, folderHolidays] :=
  have h := getFolders_then_filter
    (stubEnv exampleConfig ⟨1, str "1", some [folderInbox, folderCalendar, folderHolidays]⟩
      ⟨1, str "1"⟩)
    exampleConfig (str "<FolderSync><SyncKey>0</SyncKey></FolderSync>")
    ⟨1, str "1", some [folderInbox, folderCalendar, folderHolidays]⟩
    ⟨rfl, rfl, _, _, rfl, rfl, rfl⟩
  ⟨h.1, (h.2 _ h.1).trans (by decide)⟩

/-- C9: the FolderSync status is never checked.  For two well-formed responses
that differ only in `Status`, whichever world each arrives in, `getFolders`
returns the same result: the folder list of the response, with no error. -/
theorem getFolders_ignores_status (env₁ env₂ : Env) (config : Config)
    (requestBody₁ requestBody₂ : Bytes) (r : FolderSyncResponse) (status : Int)
    (h₁ : FolderSyncAnswered env₁ config requestBody₁ r)
    (h₂ : FolderSyncAnswered env₂ config requestBody₂ { r with Status := status }) :
    (getFolders env₁ config).2 = (getFolders env₂ config).2
      ∧ (getFolders env₂ config).2 = .ok r.Folders := by
  rw [getFolders_of_answered env₁ config requestBody₁ r h₁,
    getFolders_of_answered env₂ config requestBody₂ _ h₂]
  exact ⟨rfl, rfl⟩

theorem getFolders_ignores_status_witness :
    (getFolders (stubEnv exampleConfig ⟨1, str "1", some [folderInbox, folderCalendar]⟩
        ⟨1, str "1"⟩) exampleConfig).2
        = (getFolders (stubEnv exampleConfig ⟨6, str "1", some [folderInbox, folderCalendar]⟩
            ⟨1, str "1"⟩) exampleConfig).2
      ∧ (getFolders (stubEnv exampleConfig ⟨6, str "1", some [folderInbox, folderCalendar]⟩
            ⟨1, str "1"⟩) exampleConfig).2 = .ok (some [folderInbox, folderCalendar]) :=
  getFolders_ignores_status
    (stubEnv exampleConfig ⟨1, str "1", some [folderInbox, folderCalendar]⟩ ⟨1, str "1"⟩)
    (stubEnv exampleConfig ⟨6, str "1", some [folderInbox, folderCalendar]⟩ ⟨1, str "1"⟩)
    exampleConfig (str "<FolderSync><SyncKey>0</SyncKey></FolderSync>")
    (str "<FolderSync><SyncKey>0</SyncKey></FolderSync>")
    ⟨1, str "1", some [folderInbox, folderCalendar]⟩ 6
    ⟨rfl, rfl, _, _, rfl, rfl, rfl⟩ ⟨rfl, rfl, _, _, rfl, rfl, rfl⟩

/-- C10: `createEvent` does not use its `calendarID` argument.  For every world,
configuration and event and any two calendar identifiers, the requests sent
and the error returned are the same; and any request it sends is the one built
from the configuration and the marshalled event alone (URL, credentials,
headers and body). -/
theorem createEvent_ignores_calendarID (env : Env) (config : Config) (event : Event)
    (calendarID₁ calendarID₂ : GoString) :
    createEvent env config calendarID₁ event = createEvent env config calendarID₂ event
      ∧ ∀ e ∈ (createEvent env config calendarID₁ event).1,
          ∃ eventXML, env.xmlMarshalEvent event = .ok eventXML
            ∧ e = .Do (syncRequest config eventXML) := by
  refine ⟨rfl, ?_⟩
  intro e he
  rcases createEvent_effects env config calendarID₁ event with h | ⟨eventXML, hm, h⟩
  · simp [h] at he
  · rw [h, List.mem_singleton] at he
    exact ⟨eventXML, hm, he⟩

theorem createEvent_ignores_calendarID_witness :
    createEvent (stubEnv exampleConfig ⟨1, str "1", none⟩ ⟨1, str "1"⟩) exampleConfig (str "1")
        exampleEvent
        = createEvent (stubEnv exampleConfig ⟨1, str "1", none⟩ ⟨1, str "1"⟩) exampleConfig
            (str "7") exampleEvent
      ∧ ∃ eventXML,
          (stubEnv exampleConfig ⟨1, str "1", none⟩ ⟨1, str "1"⟩).xmlMarshalEvent exampleEvent
              = .ok eventXML
            ∧ Effect.Do (syncRequest exampleConfig (str "<Calendar></Calendar>"))
              = .Do (syncRequest exampleConfig eventXML) :=
  have h := createEvent_ignores_calendarID
    (stubEnv exampleConfig ⟨1, str "1", none⟩ ⟨1, str "1"⟩) exampleConfig exampleEvent
    (str "1") (str "7")
  ⟨h.1, h.2 _ (by
    rw [createEvent_of_answered _ _ _ _ (str "<Calendar></Calendar>") ⟨1, str "1"⟩
      ⟨rfl, rfl, _, _, rfl, rfl, rfl⟩]
    exact List.mem_singleton_self _)⟩

/-! ## The runs of `main` -/

theorem loadConfig_of_loaded (env : Env) (config : Config) (h : ConfigLoaded env config) :
    loadConfig env (str "example-config.yaml")
      = ([.ReadFile (str "example-config.yaml")], .ok config) := by
  obtain ⟨data, hr, hy⟩ := h
  simp [loadConfig, hr, hy]

theorem loadConfig_effects (env : Env) (filename : GoString) :
    (loadConfig env filename).1 = [.ReadFile filename] := by
  unfold loadConfig
  repeat' split
  all_goals rfl

theorem getFolders_effects (env : Env) (config : Config) :
    ((getFolders env config).1 = [] ∧ ∃ err, (getFolders env config).2 = .error err)
      ∨ ∃ requestBody, (getFolders env config).1 = [.Do (folderSyncRequest config requestBody)] := by
  unfold getFolders NewRequest
  simp only []
  cases hm : env.xmlMarshalFolderSyncRequest { SyncKey := str "0" } with
  | error err => simp
  | ok requestBody =>
    cases hn : env.NewRequestError (str "POST") (folderSyncURL config) with
    | some err => simp
    | none =>
      right
      refine ⟨requestBody, ?_⟩
      simp only [Request.SetBasicAuth, Request.HeaderSet, ReadAll, folderSyncRequest]
      repeat' split
      all_goals simp

theorem saveFoldersToJSON_eq (env : Env) (folders : Slice Folder) (filename : GoString) :
    saveFoldersToJSON env folders filename
      = ([.WriteFile filename (indentedJSON folders) 0o644],
          env.WriteFile filename (indentedJSON folders) 0o644) := rfl

theorem main_eq (env : Env) :
    main env =
      match (loadConfig env (str "example-config.yaml")).2 with
      | .error _ =>
        ([.callLoadConfig (str "example-config.yaml"), .ReadFile (str "example-config.yaml"),
          .Fatalf], .exited 1)
      | .ok config =>
        match (getFolders env config).2 with
        | .error _ =>
          ([.callLoadConfig (str "example-config.yaml"), .ReadFile (str "example-config.yaml"),
            .callGetFolders config] ++ (getFolders env config).1, .returned)
        | .ok folders =>
          match env.WriteFile (str "calendars.json")
              (indentedJSON (some (filterCalendars folders config.CalendarFolderType))) 0o644 with
          | some _ =>
            (tracePersisted env config (filterCalendars folders config.CalendarFolderType),
              .returned)
          | none =>
            match filterCalendars folders config.CalendarFolderType with
            | [] => (tracePersisted env config [], .returned)
            | c :: rest =>
              (tracePersisted env config (c :: rest)
                ++ [.callCreateEvent config c.FolderID (mainEvent env)]
                ++ (createEvent env config c.FolderID (mainEvent env)).1, .returned) := by
  unfold main
  simp only []
  have hl : loadConfig env (str "example-config.yaml")
      = ([.ReadFile (str "example-config.yaml")],
          (loadConfig env (str "example-config.yaml")).2) := by
    rw [← loadConfig_effects]
  generalize (loadConfig env (str "example-config.yaml")).2 = r1 at hl ⊢
  rw [hl]
  cases r1 with
  | error err => rfl
  | ok config =>
    simp only []
    have hg : getFolders env config = ((getFolders env config).1, (getFolders env config).2) := rfl
    generalize (getFolders env config).2 = r2 at hg ⊢
    generalize (getFolders env config).1 = e2 at hg ⊢
    rw [hg]
    cases r2 with
    | error err => rfl
    | ok folders =>
      simp only [saveFoldersToJSON_eq, tracePersisted]
      generalize filterCalendars folders config.CalendarFolderType = calendars
      cases hw : env.WriteFile (str "calendars.json") (indentedJSON (some calendars)) 0o644 with
      | some err => simp [hg]
      | none =>
        cases calendars with
        | nil => simp [hg]
        | cons c rest =>
          simp only [List.length_cons, gt_iff_lt, Nat.zero_lt_succ, ↓reduceDIte,
            List.getElem_cons_zero]
          split <;> simp_all

/-- C4: when the configuration loads and the server's well-formed answer has no
folder of the configured type, `main` returns normally; its effects are the
configuration read, the FolderSync request and the write of `calendars.json`
holding the empty list `[]`; `createEvent` is not called and no other request
is sent. -/
theorem main_without_calendar (env : Env) (config : Config) (requestBody : Bytes)
    (r : FolderSyncResponse) (hc : ConfigLoaded env config)
    (hf : FolderSyncAnswered env config requestBody r)
    (hno : ∀ f ∈ r.Folders.elems, f.Type_ ≠ config.CalendarFolderType) :
    main env =
        ([.callLoadConfig (str "example-config.yaml"), .ReadFile (str "example-config.yaml"),
          .callGetFolders config, .Do (folderSyncRequest config requestBody),
          .callSaveFoldersToJSON (some []) (str "calendars.json"),
          .WriteFile (str "calendars.json") (str "[]") 0o644], .returned)
      ∧ createEventCalls (main env).1 = [] := by
  have hempty : filterCalendars r.Folders config.CalendarFolderType = [] :=
    filterCalendars_eq_nil r.Folders config.CalendarFolderType hno
  have hmain : main env =
      ([.callLoadConfig (str "example-config.yaml"), .ReadFile (str "example-config.yaml"),
        .callGetFolders config, .Do (folderSyncRequest config requestBody),
        .callSaveFoldersToJSON (some []) (str "calendars.json"),
        .WriteFile (str "calendars.json") (str "[]") 0o644], .returned) := by
    rw [main_eq, loadConfig_of_loaded env config hc]
    simp only [getFolders_of_answered env config requestBody r hf, hempty, tracePersisted]
    cases env.WriteFile (str "calendars.json") (indentedJSON (some [])) 0o644 <;> rfl
  refine ⟨hmain, ?_⟩
  rw [hmain]
  rfl

theorem main_without_calendar_witness :
    main (stubEnv exampleConfig ⟨1, str "1", some [folderInbox]⟩ ⟨1, str "1"⟩) =
        ([.callLoadConfig (str "example-config.yaml"), .ReadFile (str "example-config.yaml"),
          .callGetFolders exampleConfig,
          .Do (folderSyncRequest exampleConfig
            (str "<FolderSync><SyncKey>0</SyncKey></FolderSync>")),
          .callSaveFoldersToJSON (some []) (str "calendars.json"),
          .WriteFile (str "calendars.json") (str "[]") 0o644], .returned)
      ∧ createEventCalls
          (main (stubEnv exampleConfig ⟨1, str "1", some [folderInbox]⟩ ⟨1, str "1"⟩)).1 = [] :=
  main_without_calendar (stubEnv exampleConfig ⟨1, str "1", some [folderInbox]⟩ ⟨1, str "1"⟩)
    exampleConfig (str "<FolderSync><SyncKey>0</SyncKey></FolderSync>")
    ⟨1, str "1", some [folderInbox]⟩ ⟨_, rfl, rfl⟩ ⟨rfl, rfl, _, _, rfl, rfl, rfl⟩ (by decide)

theorem createEventCalls_createEvent (env : Env) (config : Config) (calendarID : GoString)
    (event : Event) : createEventCalls (createEvent env config calendarID event).1 = [] := by
  rcases createEvent_effects env config calendarID event with h | ⟨eventXML, _, h⟩ <;>
    rw [h] <;> rfl

theorem createEventCalls_append (a b : List Effect) :
    createEventCalls (a ++ b) = createEventCalls a ++ createEventCalls b := by
  simp [createEventCalls, List.filterMap_append]

theorem head?_filter_eq_find? {α : Type} (p : α → Bool) (xs : List α) :
    (xs.filter p).head? = xs.find? p := by
  induction xs with
  | nil => rfl
  | cons x xs ih =>
    by_cases h : p x
    · simp [List.filter_cons, List.find?_cons, h]
    · simp [List.filter_cons, List.find?_cons, h, ih]

/-- C5: when the configuration loads, the server's well-formed answer has a
folder of the configured type and the write of `calendars.json` succeeds,
`main` calls `createEvent` exactly once, and the calendar identifier passed is
the `ServerId` of the first folder of the answer whose `Type` equals the
marker. -/
theorem main_creates_on_first_calendar (env : Env) (config : Config) (requestBody : Bytes)
    (r : FolderSyncResponse) (first : Folder) (hc : ConfigLoaded env config)
    (hf : FolderSyncAnswered env config requestBody r)
    (hfirst : r.Folders.elems.find? (fun f => decide (f.Type_ = config.CalendarFolderType))
      = some first)
    (hw : env.WriteFile (str "calendars.json")
      (indentedJSON (some (filterCalendars r.Folders config.CalendarFolderType))) 0o644 = none) :
    createEventCalls (main env).1 = [(config, first.FolderID, mainEvent env)] := by
  rw [main_eq, loadConfig_of_loaded env config hc]
  simp only [getFolders_of_answered env config requestBody r hf, hw]
  have hhead : (filterCalendars r.Folders config.CalendarFolderType).head? = some first := by
    rw [filterCalendars_eq_filter, head?_filter_eq_find?, hfirst]
  cases hcal : filterCalendars r.Folders config.CalendarFolderType with
  | nil => rw [hcal] at hhead; simp at hhead
  | cons c rest =>
    rw [hcal] at hhead
    simp only [List.head?_cons, Option.some.injEq] at hhead
    subst hhead
    simp only [tracePersisted, getFolders_of_answered env config requestBody r hf]
    rw [createEventCalls_append, createEventCalls_append, createEventCalls_createEvent]
    rfl

theorem main_creates_on_first_calendar_witness :
    createEventCalls
        (main (stubEnv exampleConfig
          ⟨1, str "1", some [folderInbox, folderCalendar, folderHolidays]⟩ ⟨1, str "1"⟩)).1
      = [(exampleConfig, str "1",
          mainEvent (stubEnv exampleConfig
            ⟨1, str "1", some [folderInbox, folderCalendar, folderHolidays]⟩ ⟨1, str "1"⟩))] :=
  main_creates_on_first_calendar
    (stubEnv exampleConfig ⟨1, str "1", some [folderInbox, folderCalendar, folderHolidays]⟩
      ⟨1, str "1"⟩)
    exampleConfig (str "<FolderSync><SyncKey>0</SyncKey></FolderSync>")
    ⟨1, str "1", some [folderInbox, folderCalendar, folderHolidays]⟩ folderCalendar
    ⟨_, rfl, rfl⟩ ⟨rfl, rfl, _, _, rfl, rfl, rfl⟩ (by decide) rfl

theorem getFolders_ok_effects (env : Env) (config : Config) (folders : Slice Folder)
    (h : (getFolders env config).2 = .ok folders) :
    ∃ requestBody, (getFolders env config).1 = [.Do (folderSyncRequest config requestBody)] := by
  rcases getFolders_effects env config with ⟨_, err, he⟩ | h2
  · rw [he] at h; cases h
  · exact h2

/-- C6: every step of `main` is gated on the steps before it.  If `loadConfig`
fails, the only file or network operation is the read of the configuration; if
`getFolders` fails, nothing is written and neither `saveFoldersToJSON` nor
`createEvent` is started; if `saveFoldersToJSON` fails, `createEvent` is not
started.  In every run the steps started are a prefix of (loadConfig,
getFolders, saveFoldersToJSON, createEvent), and the file and network
operations are a prefix of (read the configuration, FolderSync request, write
calendars.json, Sync request). -/
theorem main_gated (env : Env) :
    (∀ err, (loadConfig env (str "example-config.yaml")).2 = .error err →
        steps (main env).1 = [.loadConfig]
          ∧ fileNetEffects (main env).1 = [.ReadFile (str "example-config.yaml")])
      ∧ (∀ config err, (loadConfig env (str "example-config.yaml")).2 = .ok config →
          (getFolders env config).2 = .error err →
          steps (main env).1 = [.loadConfig, .getFolders]
            ∧ (fileNetEffects (main env).1 = [.ReadFile (str "example-config.yaml")]
              ∨ ∃ requestBody, fileNetEffects (main env).1
                  = [.ReadFile (str "example-config.yaml"),
                      .Do (folderSyncRequest config requestBody)]))
      ∧ (∀ config folders err, (loadConfig env (str "example-config.yaml")).2 = .ok config →
          (getFolders env config).2 = .ok folders →
          (saveFoldersToJSON env (some (filterCalendars folders config.CalendarFolderType))
            (str "calendars.json")).2 = some err →
          steps (main env).1 = [.loadConfig, .getFolders, .saveFoldersToJSON]
            ∧ ∃ requestBody, fileNetEffects (main env).1
                = [.ReadFile (str "example-config.yaml"),
                    .Do (folderSyncRequest config requestBody),
                    .WriteFile (str "calendars.json")
                      (indentedJSON (some (filterCalendars folders config.CalendarFolderType)))
                      0o644])
      ∧ steps (main env).1
          <+: [.loadConfig, .getFolders, .saveFoldersToJSON, .createEvent]
      ∧ ∃ config requestBody data eventXML, fileNetEffects (main env).1
          <+: [.ReadFile (str "example-config.yaml"), .Do (folderSyncRequest config requestBody),
                .WriteFile (str "calendars.json") data 0o644,
                .Do (syncRequest config eventXML)] := by
  have hm := main_eq env
  cases hl : (loadConfig env (str "example-config.yaml")).2 with
  | error err0 =>
    rw [hl] at hm
    simp only at hm
    rw [hm]
    refine ⟨fun _ _ => ⟨rfl, rfl⟩, ?_, ?_, ?_, ?_⟩
    · intro config err h; cases h
    · intro config folders err h; cases h
    · exact ⟨[.getFolders, .saveFoldersToJSON, .createEvent], rfl⟩
    · exact ⟨exampleConfig, [], [], [], _, rfl⟩
  | ok config0 =>
    rw [hl] at hm
    simp only at hm
    cases hg : (getFolders env config0).2 with
    | error err0 =>
      rw [hg] at hm
      simp only at hm
      rw [hm]
      have hsteps : steps ([.callLoadConfig (str "example-config.yaml"),
          .ReadFile (str "example-config.yaml"), .callGetFolders config0]
          ++ (getFolders env config0).1) = [.loadConfig, .getFolders] := by
        rcases getFolders_effects env config0 with ⟨h, _⟩ | ⟨requestBody, h⟩ <;> rw [h] <;> rfl
      have hfn : fileNetEffects ([.callLoadConfig (str "example-config.yaml"),
            .ReadFile (str "example-config.yaml"), .callGetFolders config0]
            ++ (getFolders env config0).1) = [.ReadFile (str "example-config.yaml")]
          ∨ ∃ requestBody, fileNetEffects ([.callLoadConfig (str "example-config.yaml"),
            .ReadFile (str "example-config.yaml"), .callGetFolders config0]
            ++ (getFolders env config0).1)
              = [.ReadFile (str "example-config.yaml"),
                  .Do (folderSyncRequest config0 requestBody)] := by
        rcases getFolders_effects env config0 with ⟨h, _⟩ | ⟨requestBody, h⟩
        · left; rw [h]; rfl
        · right; exact ⟨requestBody, by rw [h]; rfl⟩
      refine ⟨?_, ?_, ?_, ?_, ?_⟩
      · intro err h; cases h
      · intro config err h1 h2
        cases h1
        exact ⟨hsteps, hfn⟩
      · intro config folders err h1 h2
        cases h1
        rw [hg] at h2
        cases h2
      · rw [hsteps]
        exact ⟨[.saveFoldersToJSON, .createEvent], rfl⟩
      · rcases hfn with h | ⟨requestBody, h⟩
        · rw [h]
          exact ⟨config0, [], [], [], _, rfl⟩
        · rw [h]
          exact ⟨config0, requestBody, [], [], _, rfl⟩
    | ok folders0 =>
      rw [hg] at hm
      simp only at hm
      obtain ⟨requestBody, hgf⟩ := getFolders_ok_effects env config0 folders0 hg
      simp only [tracePersisted, hgf] at hm
      cases hw : env.WriteFile (str "calendars.json")
          (indentedJSON (some (filterCalendars folders0 config0.CalendarFolderType))) 0o644 with
      | some err0 =>
        rw [hw] at hm
        simp only at hm
        rw [hm]
        refine ⟨?_, ?_, ?_, ?_, ?_⟩
        · intro err h; cases h
        · intro config err h1 h2
          cases h1
          rw [hg] at h2
          cases h2
        · intro config folders err h1 h2 _
          cases h1
          rw [hg] at h2
          cases h2
          exact ⟨rfl, requestBody, rfl⟩
        · exact ⟨[.createEvent], rfl⟩
        · exact ⟨config0, requestBody, _, [], _, rfl⟩
      | none =>
        rw [hw] at hm
        simp only at hm
        have h3 : ∀ config folders err,
            (Except.ok config0 : Except Error Config) = .ok config →
            (getFolders env config).2 = .ok folders →
            (saveFoldersToJSON env (some (filterCalendars folders config.CalendarFolderType))
              (str "calendars.json")).2 = some err → False := by
          intro config folders err h1 h2 h3
          cases h1
          rw [hg] at h2
          cases h2
          rw [saveFoldersToJSON_eq] at h3
          simp only [hw] at h3
          cases h3
        cases hcal : filterCalendars folders0 config0.CalendarFolderType with
        | nil =>
          rw [hcal] at hm
          simp only at hm
          rw [hm]
          refine ⟨?_, ?_, ?_, ?_, ?_⟩
          · intro err h; cases h
          · intro config err h1 h2
            cases h1
            rw [hg] at h2
            cases h2
          · intro config folders err h1 h2 h4
            exact (h3 config folders err h1 h2 h4).elim
          · exact ⟨[.createEvent], rfl⟩
          · exact ⟨config0, requestBody, _, [], _, rfl⟩
        | cons c rest =>
          rw [hcal] at hm
          simp only at hm
          rw [hm]
          refine ⟨?_, ?_, ?_, ?_, ?_⟩
          · intro err h; cases h
          · intro config err h1 h2
            cases h1
            rw [hg] at h2
            cases h2
          · intro config folders err h1 h2 h4
            exact (h3 config folders err h1 h2 h4).elim
          · rcases createEvent_effects env config0 c.FolderID (mainEvent env)
              with h | ⟨eventXML, _, h⟩ <;> rw [h] <;> exact ⟨[], rfl⟩
          · rcases createEvent_effects env config0 c.FolderID (mainEvent env)
              with h | ⟨eventXML, _, h⟩
            · rw [h]
              exact ⟨config0, requestBody, _, [], _, rfl⟩
            · rw [h]
              exact ⟨config0, requestBody, _, eventXML, [], rfl⟩

theorem main_gated_witness :
    (steps (main stubEnvNoConfig).1 = [.loadConfig]
        ∧ fileNetEffects (main stubEnvNoConfig).1 = [.ReadFile (str "example-config.yaml")])
      ∧ steps (main stubEnvNoNetwork).1 = [.loadConfig, .getFolders]
      ∧ steps (main stubEnvReadOnly).1 = [.loadConfig, .getFolders, .saveFoldersToJSON] :=
  ⟨(main_gated stubEnvNoConfig).1 "no such file" rfl,
    ((main_gated stubEnvNoNetwork).2.1 exampleConfig "connection refused" rfl rfl).1,
    ((main_gated stubEnvReadOnly).2.2.1 exampleConfig (some [folderCalendar])
      "read-only file system" rfl rfl rfl).1⟩

/-! ## The query of the request URLs -/

theorem Cut_of_not_mem (sep : Byte) (s : GoString) (h : sep ∉ s) :
    Cut sep s = (s, [], false) := by
  induction s with
  | nil => rfl
  | cons b rest ih =>
    have hb : b ≠ sep := fun e => h (by simp [e])
    have hr : sep ∉ rest := fun e => h (by simp [e])
    simp [Cut, hb, ih hr]

theorem Cut_append_sep (sep : Byte) (s rest : GoString) (h : sep ∉ s) :
    Cut sep (s ++ sep :: rest) = (s, rest, true) := by
  induction s with
  | nil => simp [Cut]
  | cons b s ih =>
    have hb : b ≠ sep := fun e => h (by simp [e])
    have hr : sep ∉ s := fun e => h (by simp [e])
    simp [Cut, hb, ih hr]

theorem QueryUnescape_of_plain (s : GoString)
    (h : ∀ b ∈ s, b ≠ (0x25 : Byte) ∧ b ≠ (0x2B : Byte)) : QueryUnescape s = some s := by
  induction s with
  | nil => rfl
  | cons b rest ih =>
    have hb := h b (by simp)
    have h1 : b.val ≠ 0x25 := fun e => hb.1 (Fin.ext e)
    have h2 : b.val ≠ 0x2B := fun e => hb.2 (Fin.ext e)
    have hr := ih (fun c hc => h c (by simp [hc]))
    rw [QueryUnescape.eq_def]
    simp [h1, h2, hr]

set_option maxRecDepth 100000 in
theorem parseQuery_four (cmd user device : GoString) (hcmd : cmd = str "FolderSync" ∨ cmd = str "Sync")
    (hu : QuerySafe user) (hd : QuerySafe device) :
    ParseQuery (str "Cmd=" ++ cmd ++ str "&User=" ++ user ++ str "&DeviceId=" ++ device
        ++ str "&DeviceType=SmartPhone")
      = ([(str "Cmd", cmd), (str "User", user), (str "DeviceId", device),
          (str "DeviceType", str "SmartPhone")], false) := by
  have hne : str "Cmd=" ++ cmd ++ str "&User=" ++ user ++ str "&DeviceId=" ++ device
      ++ str "&DeviceType=SmartPhone" ≠ [] := by
    have : str "Cmd=" = 0x43 :: str "md=" := by decide
    rw [this]
    simp
  have hinter : str "Cmd=" ++ cmd ++ str "&User=" ++ user ++ str "&DeviceId=" ++ device
      ++ str "&DeviceType=SmartPhone"
      = [(0x26 : Byte)].intercalate [str "Cmd" ++ 0x3D :: cmd, str "User" ++ 0x3D :: user,
          str "DeviceId" ++ 0x3D :: device, str "DeviceType" ++ 0x3D :: str "SmartPhone"] := by
    have e1 : str "Cmd=" = str "Cmd" ++ [0x3D] := by decide
    have e2 : str "&User=" = 0x26 :: (str "User" ++ [0x3D]) := by decide
    have e3 : str "&DeviceId=" = 0x26 :: (str "DeviceId" ++ [0x3D]) := by decide
    have e4 : str "&DeviceType=SmartPhone"
        = 0x26 :: (str "DeviceType" ++ 0x3D :: str "SmartPhone") := by decide
    rw [e1, e2, e3, e4]
    simp [List.intercalate]
  have hcmdsafe : ∀ b ∈ cmd, b ≠ (0x26 : Byte) ∧ b ≠ (0x3B : Byte) ∧ b ≠ (0x2B : Byte)
      ∧ b ≠ (0x25 : Byte) ∧ b ≠ (0x23 : Byte) := by
    rcases hcmd with h | h <;> subst h <;> decide
  unfold ParseQuery
  rw [if_neg hne, hinter, List.splitOn_intercalate]
  · have k1 : (0x3D : Byte) ∉ str "Cmd" := by decide
    have k2 : (0x3D : Byte) ∉ str "User" := by decide
    have k3 : (0x3D : Byte) ∉ str "DeviceId" := by decide
    have k4 : (0x3D : Byte) ∉ str "DeviceType" := by decide
    have s1 : (0x3B : Byte) ∉ str "Cmd" ++ 0x3D :: cmd := by
      intro hm
      rcases List.mem_append.1 hm with h | h
      · revert h; decide
      · rcases List.mem_cons.1 h with h | h
        · revert h; decide
        · exact (hcmdsafe _ h).2.1 rfl
    have s2 : (0x3B : Byte) ∉ str "User" ++ 0x3D :: user := by
      intro hm
      rcases List.mem_append.1 hm with h | h
      · revert h; decide
      · rcases List.mem_cons.1 h with h | h
        · revert h; decide
        · exact (hu _ h).2.1 rfl
    have s3 : (0x3B : Byte) ∉ str "DeviceId" ++ 0x3D :: device := by
      intro hm
      rcases List.mem_append.1 hm with h | h
      · revert h; decide
      · rcases List.mem_cons.1 h with h | h
        · revert h; decide
        · exact (hd _ h).2.1 rfl
    have n1 : str "Cmd" ++ 0x3D :: cmd ≠ [] := by
      have : str "Cmd" = 0x43 :: str "md" := by decide
      rw [this]; simp
    have n2 : str "User" ++ 0x3D :: user ≠ [] := by
      have : str "User" = 0x55 :: str "ser" := by decide
      rw [this]; simp
    have n3 : str "DeviceId" ++ 0x3D :: device ≠ [] := by
      have : str "DeviceId" = 0x44 :: str "eviceId" := by decide
      rw [this]; simp
    have q0 : parseQueryPieces [str "DeviceType" ++ 0x3D :: str "SmartPhone"]
        = ([(str "DeviceType", str "SmartPhone")], false) := by decide
    have u1 : QueryUnescape (str "Cmd") = some (str "Cmd") := by decide
    have u2 : QueryUnescape (str "User") = some (str "User") := by decide
    have u3 : QueryUnescape (str "DeviceId") = some (str "DeviceId") := by decide
    have v1 := QueryUnescape_of_plain cmd (fun b hb => ⟨(hcmdsafe b hb).2.2.2.1, (hcmdsafe b hb).2.2.1⟩)
    have v2 := QueryUnescape_of_plain user (fun b hb => ⟨(hu b hb).2.2.2.1, (hu b hb).2.2.1⟩)
    have v3 := QueryUnescape_of_plain device (fun b hb => ⟨(hd b hb).2.2.2.1, (hd b hb).2.2.1⟩)
    have q1 : parseQueryPieces [str "DeviceId" ++ 0x3D :: device,
        str "DeviceType" ++ 0x3D :: str "SmartPhone"]
        = ([(str "DeviceId", device), (str "DeviceType", str "SmartPhone")], false) := by
      rw [parseQueryPieces, q0]
      simp only [if_neg s3, if_neg n3, Cut_append_sep _ _ _ k3, u3, v3]
    have q2 : parseQueryPieces [str "User" ++ 0x3D :: user, str "DeviceId" ++ 0x3D :: device,
        str "DeviceType" ++ 0x3D :: str "SmartPhone"]
        = ([(str "User", user), (str "DeviceId", device),
            (str "DeviceType", str "SmartPhone")], false) := by
      rw [parseQueryPieces, q1]
      simp only [if_neg s2, if_neg n2, Cut_append_sep _ _ _ k2, u2, v2]
    rw [parseQueryPieces, q2]
    simp only [if_neg s1, if_neg n1, Cut_append_sep _ _ _ k1, u1, v1]
  · intro l hl
    simp only [List.mem_cons, List.mem_singleton, List.not_mem_nil, or_false] at hl
    intro hm
    rcases hl with h | h | h | h <;> subst h
    · rcases List.mem_append.1 hm with h | h
      · revert h; decide
      · rcases List.mem_cons.1 h with h | h
        · revert h; decide
        · exact (hcmdsafe _ h).1 rfl
    · rcases List.mem_append.1 hm with h | h
      · revert h; decide
      · rcases List.mem_cons.1 h with h | h
        · revert h; decide
        · exact (hu _ h).1 rfl
    · rcases List.mem_append.1 hm with h | h
      · revert h; decide
      · rcases List.mem_cons.1 h with h | h
        · revert h; decide
        · exact (hd _ h).1 rfl
    · revert hm; decide
  · simp

theorem RawQuery_of_url (url cmd user device : GoString)
    (hcmd : cmd = str "FolderSync" ∨ cmd = str "Sync")
    (hurl : (0x3F : Byte) ∉ url ∧ (0x23 : Byte) ∉ url)
    (hu : QuerySafe user) (hd : QuerySafe device) :
    RawQuery (url ++ (str "?Cmd=" ++ cmd) ++ str "&User=" ++ user ++ str "&DeviceId=" ++ device
        ++ str "&DeviceType=SmartPhone")
      = str "Cmd=" ++ cmd ++ str "&User=" ++ user ++ str "&DeviceId=" ++ device
          ++ str "&DeviceType=SmartPhone" := by
  have e1 : str "?Cmd=" = 0x3F :: str "Cmd=" := by decide
  have hq : url ++ (str "?Cmd=" ++ cmd) ++ str "&User=" ++ user ++ str "&DeviceId=" ++ device
        ++ str "&DeviceType=SmartPhone"
      = url ++ 0x3F :: (str "Cmd=" ++ cmd ++ str "&User=" ++ user ++ str "&DeviceId=" ++ device
          ++ str "&DeviceType=SmartPhone") := by
    rw [e1]
    simp
  have hcmd2 : (0x23 : Byte) ∉ cmd := by
    rcases hcmd with h | h <;> subst h <;> decide
  have hfrag : (0x23 : Byte) ∉ url ++ 0x3F :: (str "Cmd=" ++ cmd ++ str "&User=" ++ user
      ++ str "&DeviceId=" ++ device ++ str "&DeviceType=SmartPhone") := by
    have l1 : (0x23 : Byte) ∉ str "Cmd=" := by decide
    have l2 : (0x23 : Byte) ∉ str "&User=" := by decide
    have l3 : (0x23 : Byte) ∉ str "&DeviceId=" := by decide
    have l4 : (0x23 : Byte) ∉ str "&DeviceType=SmartPhone" := by decide
    have l5 : (0x23 : Byte) ∉ user := fun h => (hu _ h).2.2.2.2 rfl
    have l6 : (0x23 : Byte) ∉ device := fun h => (hd _ h).2.2.2.2 rfl
    have l7 : (0x23 : Byte) ≠ 0x3F := by decide
    simp only [List.mem_append, List.mem_cons, not_or]
    exact ⟨hurl.2, l7, ⟨⟨⟨⟨⟨⟨l1, hcmd2⟩, l2⟩, l5⟩, l3⟩, l6⟩, l4⟩⟩
  unfold RawQuery
  rw [hq, Cut_of_not_mem _ _ hfrag, Cut_append_sep _ _ _ hurl.1]

/-- C8 as stated fails: for the user name `a&b` the query of the FolderSync URL
decodes to the five parameters Cmd, User=a, b, DeviceId and DeviceType, so
the configured user name is not recovered. -/
theorem query_splits_username :
    ParseQuery (RawQuery (folderSyncURL { exampleConfig with Username := str "a&b" }))
        = ([(str "Cmd", str "FolderSync"), (str "User", str "a"), (str "b", []),
            (str "DeviceId", str "dev1"), (str "DeviceType", str "SmartPhone")], false)
      ∧ ParseQuery (RawQuery (folderSyncURL { exampleConfig with Username := str "a&b" }))
        ≠ ([(str "Cmd", str "FolderSync"), (str "User", str "a&b"),
            (str "DeviceId", str "dev1"), (str "DeviceType", str "SmartPhone")], false) := by
  decide

/-- C8 amended: for every configuration, the URL string that `getFolders`
hands to `http.NewRequest`, and that every request it sends carries, is the
configured URL followed by `?Cmd=FolderSync&User=`, the user name, `&DeviceId=`,
the device id and `&DeviceType=SmartPhone`, the values inserted as they are,
without escaping; that of `createEvent` is the same with `Cmd=Sync`.  When the
configured URL has no `?` and no `#` and the user name and device id have none
of the bytes `&`, `;`, `+`, `%`, `#`, decoding the query of that string yields
exactly the four parameters Cmd, User, DeviceId and DeviceType=SmartPhone, with
the configured user name and device id unchanged. -/
theorem request_query_decodes (config : Config) :
    (∀ env req, Effect.Do req ∈ (getFolders env config).1 →
        req.URL = config.ExchangeURL ++ str "?Cmd=FolderSync&User=" ++ config.Username
          ++ str "&DeviceId=" ++ config.DeviceID ++ str "&DeviceType=SmartPhone")
      ∧ (∀ env calendarID event req,
          Effect.Do req ∈ (createEvent env config calendarID event).1 →
          req.URL = config.ExchangeURL ++ str "?Cmd=Sync&User=" ++ config.Username
            ++ str "&DeviceId=" ++ config.DeviceID ++ str "&DeviceType=SmartPhone")
      ∧ ((0x3F : Byte) ∉ config.ExchangeURL ∧ (0x23 : Byte) ∉ config.ExchangeURL →
          QuerySafe config.Username → QuerySafe config.DeviceID →
          ParseQuery (RawQuery (config.ExchangeURL ++ str "?Cmd=FolderSync&User="
              ++ config.Username ++ str "&DeviceId=" ++ config.DeviceID
              ++ str "&DeviceType=SmartPhone"))
            = ([(str "Cmd", str "FolderSync"), (str "User", config.Username),
                (str "DeviceId", config.DeviceID), (str "DeviceType", str "SmartPhone")],
                false)
          ∧ ParseQuery (RawQuery (config.ExchangeURL ++ str "?Cmd=Sync&User="
              ++ config.Username ++ str "&DeviceId=" ++ config.DeviceID
              ++ str "&DeviceType=SmartPhone"))
            = ([(str "Cmd", str "Sync"), (str "User", config.Username),
                (str "DeviceId", config.DeviceID), (str "DeviceType", str "SmartPhone")],
                false)) := by
  refine ⟨?_, ?_, ?_⟩
  · intro env req hreq
    rcases getFolders_effects env config with ⟨h, _⟩ | ⟨requestBody, h⟩
    · rw [h] at hreq; cases hreq
    · rw [h, List.mem_singleton] at hreq
      cases hreq
      rfl
  · intro env calendarID event req hreq
    rcases createEvent_effects env config calendarID event with h | ⟨eventXML, _, h⟩
    · rw [h] at hreq; cases hreq
    · rw [h, List.mem_singleton] at hreq
      cases hreq
      rfl
  · intro hurl hu hd
    constructor
    · have e : str "?Cmd=FolderSync&User="
          = (str "?Cmd=" ++ str "FolderSync") ++ str "&User=" := by decide
      rw [e, ← List.append_assoc config.ExchangeURL,
        RawQuery_of_url _ _ _ _ (Or.inl rfl) hurl hu hd,
        parseQuery_four _ _ _ (Or.inl rfl) hu hd]
    · have e : str "?Cmd=Sync&User=" = (str "?Cmd=" ++ str "Sync") ++ str "&User=" := by
        decide
      rw [e, ← List.append_assoc config.ExchangeURL,
        RawQuery_of_url _ _ _ _ (Or.inr rfl) hurl hu hd,
        parseQuery_four _ _ _ (Or.inr rfl) hu hd]

set_option maxRecDepth 100000 in
theorem request_query_decodes_witness :
    (folderSyncRequest { exampleConfig with Username := str "a&b" }
          (str "<FolderSync><SyncKey>0</SyncKey></FolderSync>")).URL
        = str "https://mail.example.com/Microsoft-Server-ActiveSync"
          ++ str "?Cmd=FolderSync&User=" ++ str "a&b" ++ str "&DeviceId=" ++ str "dev1"
          ++ str "&DeviceType=SmartPhone"
      ∧ ParseQuery (RawQuery (exampleConfig.ExchangeURL ++ str "?Cmd=FolderSync&User="
            ++ exampleConfig.Username ++ str "&DeviceId=" ++ exampleConfig.DeviceID
            ++ str "&DeviceType=SmartPhone"))
          = ([(str "Cmd", str "FolderSync"), (str "User", str "alice"),
              (str "DeviceId", str "dev1"), (str "DeviceType", str "SmartPhone")], false)
      ∧ ParseQuery (RawQuery (exampleConfig.ExchangeURL ++ str "?Cmd=Sync&User="
            ++ exampleConfig.Username ++ str "&DeviceId=" ++ exampleConfig.DeviceID
            ++ str "&DeviceType=SmartPhone"))
          = ([(str "Cmd", str "Sync"), (str "User", str "alice"),
              (str "DeviceId", str "dev1"), (str "DeviceType", str "SmartPhone")], false) :=
  ⟨(request_query_decodes { exampleConfig with Username := str "a&b" }).1
      (stubEnv exampleConfig ⟨1, str "1", none⟩ ⟨1, str "1"⟩)
      (folderSyncRequest { exampleConfig with Username := str "a&b" }
        (str "<FolderSync><SyncKey>0</SyncKey></FolderSync>"))
      (by
        rw [getFolders_of_answered _ _ (str "<FolderSync><SyncKey>0</SyncKey></FolderSync>")
          ⟨1, str "1", none⟩ ⟨rfl, rfl, _, _, rfl, rfl, rfl⟩]
        exact List.mem_singleton_self _),
    (request_query_decodes exampleConfig).2.2 (by decide) (by unfold QuerySafe; decide)
      (by unfold QuerySafe; decide)⟩

/-! ## Reading `calendars.json` back -/

set_option maxRecDepth 100000 in
theorem first_cases (b : Byte) :
    (b.val < 0x80 ∧ first b = 0xF0)
    ∨ ((0x80 ≤ b.val ∧ b.val < 0xC2 ∨ 0xF4 < b.val) ∧ first b = 0xF1)
    ∨ (0xC2 ≤ b.val ∧ b.val < 0xE0 ∧ first b = 0x02)
    ∨ (b.val = 0xE0 ∧ first b = 0x13)
    ∨ ((0xE1 ≤ b.val ∧ b.val < 0xED ∨ b.val = 0xEE ∨ b.val = 0xEF) ∧ first b = 0x03)
    ∨ (b.val = 0xED ∧ first b = 0x23)
    ∨ (b.val = 0xF0 ∧ first b = 0x34)
    ∨ (0xF1 ≤ b.val ∧ b.val < 0xF4 ∧ first b = 0x04)
    ∨ (b.val = 0xF4 ∧ first b = 0x44) := by
  revert b
  decide

theorem DecodeRune_two (b : Byte) (rest : List Byte) (h : first b = 0x02) :
    DecodeRune (b :: rest) =
      match rest with
      | [] => (RuneError, 1)
      | s1 :: _ =>
        if s1.val < 0x80 ∨ 0xBF < s1.val then (RuneError, 1)
        else ((b.val % 32) * 64 + s1.val % 64, 2) := by
  cases rest with
  | nil => simp [DecodeRune, h, acceptRanges]
  | cons s1 t1 => simp [DecodeRune, h, acceptRanges]

theorem DecodeRune_three (b : Byte) (rest : List Byte) (x : Nat) (h : first b = x)
    (hx : x = 0x13 ∨ x = 0x03 ∨ x = 0x23) :
    DecodeRune (b :: rest) =
      match rest with
      | s1 :: s2 :: _ =>
        if s1.val < (acceptRanges (x / 16)).1 ∨ (acceptRanges (x / 16)).2 < s1.val then
          (RuneError, 1)
        else if s2.val < 0x80 ∨ 0xBF < s2.val then (RuneError, 1)
        else ((b.val % 16) * 4096 + (s1.val % 64) * 64 + s2.val % 64, 3)
      | _ => (RuneError, 1) := by
  rcases rest with _ | ⟨s1, _ | ⟨s2, t2⟩⟩ <;> rcases hx with hx | hx | hx <;> subst hx <;>
    simp [DecodeRune, h, acceptRanges]

theorem DecodeRune_four (b : Byte) (rest : List Byte) (x : Nat) (h : first b = x)
    (hx : x = 0x34 ∨ x = 0x04 ∨ x = 0x44) :
    DecodeRune (b :: rest) =
      match rest with
      | s1 :: s2 :: s3 :: _ =>
        if s1.val < (acceptRanges (x / 16)).1 ∨ (acceptRanges (x / 16)).2 < s1.val then
          (RuneError, 1)
        else if s2.val < 0x80 ∨ 0xBF < s2.val then (RuneError, 1)
        else if s3.val < 0x80 ∨ 0xBF < s3.val then (RuneError, 1)
        else ((b.val % 8) * 262144 + (s1.val % 64) * 4096 + (s2.val % 64) * 64
          + s3.val % 64, 4)
      | _ => (RuneError, 1) := by
  rcases rest with _ | ⟨s1, _ | ⟨s2, _ | ⟨s3, t3⟩⟩⟩ <;> rcases hx with hx | hx | hx <;>
    subst hx <;> simp [DecodeRune, h, acceptRanges]

theorem val_ofNat (n : Nat) : (Fin.ofNat n : Byte).val = n % 256 := rfl

theorem EncodeRune_two (b s1 : Byte) (hb : 0xC2 ≤ b.val ∧ b.val < 0xE0)
    (h1 : 0x80 ≤ s1.val ∧ s1.val ≤ 0xBF) :
    EncodeRune ((b.val % 32) * 64 + s1.val % 64) = [b, s1] := by
  unfold EncodeRune
  rw [if_neg (by omega), if_pos (by omega)]
  simp only [List.cons.injEq, and_true]
  constructor <;> apply Fin.ext <;> rw [val_ofNat] <;> omega

theorem EncodeRune_three (b s1 s2 : Byte) (hb : 0xE0 ≤ b.val ∧ b.val ≤ 0xEF)
    (h1 : 0x80 ≤ s1.val ∧ s1.val ≤ 0xBF) (h2 : 0x80 ≤ s2.val ∧ s2.val ≤ 0xBF)
    (hlo : b.val = 0xE0 → 0xA0 ≤ s1.val) (hhi : b.val = 0xED → s1.val ≤ 0x9F) :
    EncodeRune ((b.val % 16) * 4096 + (s1.val % 64) * 64 + s2.val % 64) = [b, s1, s2] := by
  unfold EncodeRune
  rw [if_neg (by omega), if_neg (by omega), if_pos (by omega)]
  simp only [List.cons.injEq, and_true]
  refine ⟨?_, ?_, ?_⟩ <;> apply Fin.ext <;> rw [val_ofNat] <;> omega

theorem EncodeRune_four (b s1 s2 s3 : Byte) (hb : 0xF0 ≤ b.val ∧ b.val ≤ 0xF4)
    (h1 : 0x80 ≤ s1.val ∧ s1.val ≤ 0xBF) (h2 : 0x80 ≤ s2.val ∧ s2.val ≤ 0xBF)
    (h3 : 0x80 ≤ s3.val ∧ s3.val ≤ 0xBF)
    (hlo : b.val = 0xF0 → 0x90 ≤ s1.val) (hhi : b.val = 0xF4 → s1.val ≤ 0x8F) :
    EncodeRune ((b.val % 8) * 262144 + (s1.val % 64) * 4096 + (s2.val % 64) * 64 + s3.val % 64)
      = [b, s1, s2, s3] := by
  unfold EncodeRune
  rw [if_neg (by omega), if_neg (by omega), if_neg (by omega), if_pos (by omega)]
  simp only [List.cons.injEq, and_true]
  refine ⟨?_, ?_, ?_, ?_⟩ <;> apply Fin.ext <;> rw [val_ofNat] <;> omega

theorem DecodeRune_valid_three (b : Byte) (rest : List Byte) (c size x : Nat)
    (hf : first b = x)
    (hx : (x = 0x13 ∧ b.val = 0xE0)
      ∨ (x = 0x03 ∧ (0xE1 ≤ b.val ∧ b.val < 0xED ∨ b.val = 0xEE ∨ b.val = 0xEF))
      ∨ (x = 0x23 ∧ b.val = 0xED))
    (h : DecodeRune (b :: rest) = (c, size)) (hv : ¬(c = RuneError ∧ size = 1)) :
    ∃ pre post, rest = pre ++ post ∧ size = pre.length + 1 ∧ pre ≠ []
      ∧ EncodeRune c = b :: pre ∧ 0x80 ≤ c
      ∧ ∀ t, DecodeRune (b :: (pre ++ t)) = (c, size) := by
  have hx3 : x = 0x13 ∨ x = 0x03 ∨ x = 0x23 := by omega
  rw [DecodeRune_three b rest x hf hx3] at h
  rcases rest with _ | ⟨s1, _ | ⟨s2, t2⟩⟩
  · simp only [Prod.mk.injEq] at h
    exact (hv ⟨h.1.symm, h.2.symm⟩).elim
  · simp only [Prod.mk.injEq] at h
    exact (hv ⟨h.1.symm, h.2.symm⟩).elim
  · simp only at h
    split_ifs at h with hc1 hc2
    · simp only [Prod.mk.injEq] at h
      exact (hv ⟨h.1.symm, h.2.symm⟩).elim
    · simp only [Prod.mk.injEq] at h
      exact (hv ⟨h.1.symm, h.2.symm⟩).elim
    · simp only [Prod.mk.injEq] at h
      obtain ⟨e1, e2⟩ := h
      subst e1 e2
      have hr : 0x80 ≤ s1.val ∧ s1.val ≤ 0xBF ∧ (b.val = 0xE0 → 0xA0 ≤ s1.val)
          ∧ (b.val = 0xED → s1.val ≤ 0x9F) := by
        rcases hx with ⟨e, hb⟩ | ⟨e, hb⟩ | ⟨e, hb⟩ <;> subst e <;>
          simp only [acceptRanges, Nat.reduceDiv] at hc1 <;> omega
      refine ⟨[s1, s2], t2, rfl, rfl, by simp, ?_, by omega, ?_⟩
      · exact EncodeRune_three b s1 s2 (by omega) ⟨hr.1, hr.2.1⟩ (by omega) hr.2.2.1 hr.2.2.2
      · intro t
        rw [DecodeRune_three b _ x hf hx3]
        simp only [List.cons_append, List.nil_append, if_neg hc1, if_neg hc2]

theorem DecodeRune_valid_four (b : Byte) (rest : List Byte) (c size x : Nat)
    (hf : first b = x)
    (hx : (x = 0x34 ∧ b.val = 0xF0) ∨ (x = 0x04 ∧ 0xF1 ≤ b.val ∧ b.val < 0xF4)
      ∨ (x = 0x44 ∧ b.val = 0xF4))
    (h : DecodeRune (b :: rest) = (c, size)) (hv : ¬(c = RuneError ∧ size = 1)) :
    ∃ pre post, rest = pre ++ post ∧ size = pre.length + 1 ∧ pre ≠ []
      ∧ EncodeRune c = b :: pre ∧ 0x80 ≤ c
      ∧ ∀ t, DecodeRune (b :: (pre ++ t)) = (c, size) := by
  have hx3 : x = 0x34 ∨ x = 0x04 ∨ x = 0x44 := by omega
  rw [DecodeRune_four b rest x hf hx3] at h
  rcases rest with _ | ⟨s1, _ | ⟨s2, _ | ⟨s3, t3⟩⟩⟩
  · simp only [Prod.mk.injEq] at h
    exact (hv ⟨h.1.symm, h.2.symm⟩).elim
  · simp only [Prod.mk.injEq] at h
    exact (hv ⟨h.1.symm, h.2.symm⟩).elim
  · simp only [Prod.mk.injEq] at h
    exact (hv ⟨h.1.symm, h.2.symm⟩).elim
  · simp only at h
    split_ifs at h with hc1 hc2 hc3
    · simp only [Prod.mk.injEq] at h
      exact (hv ⟨h.1.symm, h.2.symm⟩).elim
    · simp only [Prod.mk.injEq] at h
      exact (hv ⟨h.1.symm, h.2.symm⟩).elim
    · simp only [Prod.mk.injEq] at h
      exact (hv ⟨h.1.symm, h.2.symm⟩).elim
    · simp only [Prod.mk.injEq] at h
      obtain ⟨e1, e2⟩ := h
      subst e1 e2
      have hr : 0x80 ≤ s1.val ∧ s1.val ≤ 0xBF ∧ (b.val = 0xF0 → 0x90 ≤ s1.val)
          ∧ (b.val = 0xF4 → s1.val ≤ 0x8F) := by
        rcases hx with ⟨e, hb⟩ | ⟨e, hb⟩ | ⟨e, hb⟩ <;> subst e <;>
          simp only [acceptRanges, Nat.reduceDiv] at hc1 <;> omega
      refine ⟨[s1, s2, s3], t3, rfl, rfl, by simp, ?_, by omega, ?_⟩
      · exact EncodeRune_four b s1 s2 s3 (by omega) ⟨hr.1, hr.2.1⟩ (by omega) (by omega)
          hr.2.2.1 hr.2.2.2
      · intro t
        rw [DecodeRune_four b _ x hf hx3]
        simp only [List.cons_append, List.nil_append, if_neg hc1, if_neg hc2, if_neg hc3]

/-- A multi-byte rune that decodes without error is a valid UTF-8 sequence:
`EncodeRune` gives its bytes back, and decoding looks at these bytes only. -/
theorem DecodeRune_valid (b : Byte) (rest : List Byte) (c size : Nat) (hb : 0x80 ≤ b.val)
    (h : DecodeRune (b :: rest) = (c, size)) (hv : ¬(c = RuneError ∧ size = 1)) :
    ∃ pre post, rest = pre ++ post ∧ size = pre.length + 1 ∧ pre ≠ []
      ∧ EncodeRune c = b :: pre ∧ 0x80 ≤ c
      ∧ ∀ t, DecodeRune (b :: (pre ++ t)) = (c, size) := by
  rcases first_cases b with ⟨h0, _⟩ | ⟨_, hf⟩ | ⟨l, u, hf⟩ | ⟨e, hf⟩ | ⟨r, hf⟩ | ⟨e, hf⟩
    | ⟨e, hf⟩ | ⟨l, u, hf⟩ | ⟨e, hf⟩
  · omega
  · exfalso
    apply hv
    simp [DecodeRune, hf] at h
    exact ⟨h.1.symm, h.2.symm⟩
  · rw [DecodeRune_two b rest hf] at h
    rcases rest with _ | ⟨s1, t1⟩
    · simp only [Prod.mk.injEq] at h
      exact (hv ⟨h.1.symm, h.2.symm⟩).elim
    · simp only at h
      split_ifs at h with hc
      · simp only [Prod.mk.injEq] at h
        exact (hv ⟨h.1.symm, h.2.symm⟩).elim
      · simp only [Prod.mk.injEq] at h
        obtain ⟨hc1, hc2⟩ := h
        subst hc1 hc2
        refine ⟨[s1], t1, rfl, rfl, by simp, ?_, by omega, ?_⟩
        · exact EncodeRune_two b s1 ⟨l, u⟩ (by omega)
        · intro t
          rw [DecodeRune_two b _ hf]
          simp only [List.singleton_append, if_neg hc]
  · exact DecodeRune_valid_three b rest c size _ hf (Or.inl ⟨rfl, e⟩) h hv
  · exact DecodeRune_valid_three b rest c size _ hf (Or.inr (Or.inl ⟨rfl, r⟩)) h hv
  · exact DecodeRune_valid_three b rest c size _ hf (Or.inr (Or.inr ⟨rfl, e⟩)) h hv
  · exact DecodeRune_valid_four b rest c size _ hf (Or.inl ⟨rfl, e⟩) h hv
  · exact DecodeRune_valid_four b rest c size _ hf (Or.inr (Or.inl ⟨rfl, l, u⟩)) h hv
  · exact DecodeRune_valid_four b rest c size _ hf (Or.inr (Or.inr ⟨rfl, e⟩)) h hv



theorem unhex_hex (n : Nat) (h : n < 16) : unhex (hex n) = some n := by
  have key : ∀ m : Fin 16, unhex (hex m.val) = some m.val := by decide
  exact key ⟨n, h⟩

theorem prepend_some (bs : List Byte) (s : GoString) (rest : Bytes) :
    prepend bs (some (s, rest)) = some (bs ++ s, rest) := rfl

theorem unquoteLoop_succ_cons (fuel : Nat) (c : Byte) (rest : Bytes) :
    unquoteLoop (fuel + 1) (c :: rest) =
      if c.val = 0x22 then some ([], rest)
      else if c.val = 0x5C then
        match rest with
        | [] => none
        | e :: rest2 =>
          if e.val = 0x22 ∨ e.val = 0x5C ∨ e.val = 0x2F then prepend [e] (unquoteLoop fuel rest2)
          else if e.val = 0x62 then prepend [0x08] (unquoteLoop fuel rest2)
          else if e.val = 0x66 then prepend [0x0C] (unquoteLoop fuel rest2)
          else if e.val = 0x6E then prepend [0x0A] (unquoteLoop fuel rest2)
          else if e.val = 0x72 then prepend [0x0D] (unquoteLoop fuel rest2)
          else if e.val = 0x74 then prepend [0x09] (unquoteLoop fuel rest2)
          else if e.val = 0x75 then
            match getu4 (c :: rest) with
            | none => none
            | some rr =>
              if IsSurrogate rr then
                let dec := utf16DecodeRune rr (getu4 (rest.drop 5))
                if dec ≠ 0xFFFD then prepend (EncodeRune dec) (unquoteLoop fuel (rest.drop 11))
                else prepend (EncodeRune 0xFFFD) (unquoteLoop fuel (rest.drop 5))
              else prepend (EncodeRune rr) (unquoteLoop fuel (rest.drop 5))
          else none
      else if c.val < 0x20 then none
      else if c.val < 0x80 then prepend [c] (unquoteLoop fuel rest)
      else
        prepend (EncodeRune (DecodeRune (c :: rest)).1)
          (unquoteLoop fuel (rest.drop ((DecodeRune (c :: rest)).2 - 1))) := by
  rfl

theorem unquoteLoop_quote (fuel : Nat) (rest : Bytes) :
    unquoteLoop (fuel + 1) (0x22 :: rest) = some ([], rest) := by
  rw [unquoteLoop_succ_cons, if_pos (by decide)]

theorem unquoteLoop_safe (fuel : Nat) (b : Byte) (X : Bytes) (hb : b.val < 0x80)
    (hs : htmlSafeSet b = true) :
    unquoteLoop (fuel + 1) (b :: X) = prepend [b] (unquoteLoop fuel X) := by
  simp only [htmlSafeSet, decide_eq_true_eq] at hs
  rw [unquoteLoop_succ_cons]
  rw [if_neg (by omega), if_neg (by omega), if_neg (by omega), if_pos (by omega)]

theorem unquoteLoop_simple_escape (fuel : Nat) (e : Byte) (X : Bytes) :
    unquoteLoop (fuel + 1) (0x5C :: e :: X) =
      if e.val = 0x22 ∨ e.val = 0x5C ∨ e.val = 0x2F then prepend [e] (unquoteLoop fuel X)
      else if e.val = 0x62 then prepend [0x08] (unquoteLoop fuel X)
      else if e.val = 0x66 then prepend [0x0C] (unquoteLoop fuel X)
      else if e.val = 0x6E then prepend [0x0A] (unquoteLoop fuel X)
      else if e.val = 0x72 then prepend [0x0D] (unquoteLoop fuel X)
      else if e.val = 0x74 then prepend [0x09] (unquoteLoop fuel X)
      else if e.val = 0x75 then
        match getu4 (0x5C :: e :: X) with
        | none => none
        | some rr =>
          if IsSurrogate rr then
            let dec := utf16DecodeRune rr (getu4 ((e :: X).drop 5))
            if dec ≠ 0xFFFD then prepend (EncodeRune dec) (unquoteLoop fuel ((e :: X).drop 11))
            else prepend (EncodeRune 0xFFFD) (unquoteLoop fuel ((e :: X).drop 5))
          else prepend (EncodeRune rr) (unquoteLoop fuel ((e :: X).drop 5))
      else none := by
  rw [unquoteLoop_succ_cons, if_neg (by decide), if_pos (by decide)]

theorem getu4_escape (c0 c1 c2 c3 : Byte) (a0 a1 a2 a3 : Nat)
    (e0 : unhex c0 = some a0) (e1 : unhex c1 = some a1) (e2 : unhex c2 = some a2)
    (e3 : unhex c3 = some a3) (X : Bytes) :
    getu4 (0x5C :: 0x75 :: c0 :: c1 :: c2 :: c3 :: X)
      = some (((a0 * 16 + a1) * 16 + a2) * 16 + a3) := by
  unfold getu4
  simp only [e0, e1, e2, e3]
  rw [if_pos (by decide)]

/-- The decoder undoes a `\uXXXX` escape of a rune that is not a surrogate. -/
theorem unquoteLoop_u (fuel : Nat) (r : Nat) (c0 c1 c2 c3 : Byte) (a0 a1 a2 a3 : Nat)
    (e0 : unhex c0 = some a0) (e1 : unhex c1 = some a1) (e2 : unhex c2 = some a2)
    (e3 : unhex c3 = some a3)
    (hr : ((a0 * 16 + a1) * 16 + a2) * 16 + a3 = r) (hs : r < 0xD800 ∨ 0xE000 ≤ r)
    (X : Bytes) :
    unquoteLoop (fuel + 1) (0x5C :: 0x75 :: c0 :: c1 :: c2 :: c3 :: X)
      = prepend (EncodeRune r) (unquoteLoop fuel X) := by
  rw [unquoteLoop_simple_escape]
  rw [if_neg (by decide), if_neg (by decide), if_neg (by decide), if_neg (by decide),
    if_neg (by decide), if_neg (by decide), if_pos (by decide)]
  rw [getu4_escape c0 c1 c2 c3 a0 a1 a2 a3 e0 e1 e2 e3, hr]
  have hns : IsSurrogate r = false := by
    simp only [IsSurrogate, decide_eq_false_iff_not]
    omega
  simp only [hns, Bool.false_eq_true, if_false, List.drop_succ_cons, List.drop_zero]

theorem EncodeRune_ascii (b : Byte) (hb : b.val < 0x80) : EncodeRune b.val = [b] := by
  unfold EncodeRune
  rw [if_pos (by omega)]
  congr 1
  apply Fin.ext
  rw [val_ofNat]
  omega

theorem unquoteLoop_escapeByte (fuel : Nat) (b : Byte) (X : Bytes) (hb : b.val < 0x80) :
    unquoteLoop (fuel + 1) (escapeByte b ++ X) = prepend [b] (unquoteLoop fuel X) := by
  unfold escapeByte
  by_cases h1 : b.val = 0x5C ∨ b.val = 0x22
  · rw [if_pos h1]
    simp only [List.cons_append, List.nil_append]
    rw [unquoteLoop_simple_escape, if_pos (by omega)]
  · rw [if_neg h1]
    by_cases h2 : b.val = 0x08
    · rw [if_pos h2, show b = 0x08 from Fin.ext h2]
      exact (unquoteLoop_simple_escape fuel 0x62 X).trans (by
        rw [if_neg (by decide), if_pos (by decide)])
    · rw [if_neg h2]
      by_cases h3 : b.val = 0x0C
      · rw [if_pos h3, show b = 0x0C from Fin.ext h3]
        exact (unquoteLoop_simple_escape fuel 0x66 X).trans (by
          rw [if_neg (by decide), if_neg (by decide), if_pos (by decide)])
      · rw [if_neg h3]
        by_cases h4 : b.val = 0x0A
        · rw [if_pos h4, show b = 0x0A from Fin.ext h4]
          exact (unquoteLoop_simple_escape fuel 0x6E X).trans (by
            rw [if_neg (by decide), if_neg (by decide), if_neg (by decide), if_pos (by decide)])
        · rw [if_neg h4]
          by_cases h5 : b.val = 0x0D
          · rw [if_pos h5, show b = 0x0D from Fin.ext h5]
            exact (unquoteLoop_simple_escape fuel 0x72 X).trans (by
              rw [if_neg (by decide), if_neg (by decide), if_neg (by decide),
                if_neg (by decide), if_pos (by decide)])
          · rw [if_neg h5]
            by_cases h6 : b.val = 0x09
            · rw [if_pos h6, show b = 0x09 from Fin.ext h6]
              exact (unquoteLoop_simple_escape fuel 0x74 X).trans (by
                rw [if_neg (by decide), if_neg (by decide), if_neg (by decide),
                  if_neg (by decide), if_neg (by decide), if_pos (by decide)])
            · rw [if_neg h6]
              simp only [List.cons_append, List.nil_append]
              rw [unquoteLoop_u fuel b.val 0x30 0x30 (hex (b.val / 16)) (hex (b.val % 16)) 0 0
                (b.val / 16) (b.val % 16) (by decide) (by decide)
                (unhex_hex _ (by omega)) (unhex_hex _ (by omega)) (by omega) (by omega),
                EncodeRune_ascii b hb]

theorem unquoteLoop_rune (fuel : Nat) (b : Byte) (pre X : Bytes) (c : Nat)
    (hb : 0x80 ≤ b.val) (hd : DecodeRune (b :: (pre ++ X)) = (c, pre.length + 1))
    (he : EncodeRune c = b :: pre) :
    unquoteLoop (fuel + 1) (b :: (pre ++ X)) = prepend (b :: pre) (unquoteLoop fuel X) := by
  rw [unquoteLoop_succ_cons, if_neg (by omega), if_neg (by omega), if_neg (by omega),
    if_neg (by omega), hd]
  simp only [he, Nat.add_sub_cancel, List.drop_left]

theorem appendStringLoop_nil (fuel : Nat) : appendStringLoop fuel [] = [] := by
  cases fuel <;> rfl

theorem appendStringLoop_succ_cons (fuel : Nat) (b : Byte) (rest : List Byte) :
    appendStringLoop (fuel + 1) (b :: rest) =
      if b.val < 0x80 then
        if htmlSafeSet b then b :: appendStringLoop fuel rest
        else escapeByte b ++ appendStringLoop fuel rest
      else
        if (DecodeRune (b :: rest)).1 = RuneError ∧ (DecodeRune (b :: rest)).2 = 1 then
          str "\\ufffd" ++ appendStringLoop fuel rest
        else if (DecodeRune (b :: rest)).1 = 0x2028 ∨ (DecodeRune (b :: rest)).1 = 0x2029 then
          [0x5C, 0x75, 0x32, 0x30, 0x32, hex ((DecodeRune (b :: rest)).1 % 16)]
            ++ appendStringLoop fuel (rest.drop ((DecodeRune (b :: rest)).2 - 1))
        else
          (b :: rest).take (DecodeRune (b :: rest)).2
            ++ appendStringLoop fuel (rest.drop ((DecodeRune (b :: rest)).2 - 1)) := by
  rfl

theorem validLoop_succ_cons (fuel : Nat) (b : Byte) (rest : List Byte) :
    validLoop (fuel + 1) (b :: rest) =
      if (DecodeRune (b :: rest)).1 = RuneError ∧ (DecodeRune (b :: rest)).2 = 1 then false
      else validLoop fuel (rest.drop ((DecodeRune (b :: rest)).2 - 1)) := by
  rfl

theorem DecodeRune_ascii (b : Byte) (rest : List Byte) (hb : b.val < 0x80) :
    DecodeRune (b :: rest) = (b.val, 1) := by
  have hf : first b = 0xF0 := by
    unfold first
    rw [if_pos hb]
  simp [DecodeRune, hf]

theorem escapeByte_length_pos (b : Byte) : 1 ≤ (escapeByte b).length := by
  unfold escapeByte
  split_ifs <;> simp

/-- More fuel than the length of the string does not change what the encoder
writes: the loop of `appendString` ends by itself. -/
theorem appendStringLoop_fuel (f : Nat) :
    ∀ (g : Nat) (s : GoString), s.length ≤ f → s.length ≤ g →
      appendStringLoop f s = appendStringLoop g s := by
  induction f with
  | zero =>
    intro g s hf _
    have : s = [] := List.eq_nil_of_length_eq_zero (by omega)
    subst this
    rw [appendStringLoop_nil, appendStringLoop_nil]
  | succ f ih =>
    intro g s hf hg
    cases s with
    | nil => rw [appendStringLoop_nil, appendStringLoop_nil]
    | cons b rest =>
      simp only [List.length_cons] at hf hg
      obtain ⟨g', rfl⟩ : ∃ k, g = k + 1 := ⟨g - 1, by omega⟩
      have hdrop : ∀ k, (rest.drop k).length ≤ rest.length := fun k => by
        rw [List.length_drop]
        omega
      rw [appendStringLoop_succ_cons, appendStringLoop_succ_cons,
        ih g' rest (by omega) (by omega),
        ih g' (rest.drop ((DecodeRune (b :: rest)).2 - 1))
          (by have := hdrop ((DecodeRune (b :: rest)).2 - 1); omega)
          (by have := hdrop ((DecodeRune (b :: rest)).2 - 1); omega)]

/-- The decoder reads back what the encoder wrote for a valid UTF-8 string,
up to the closing quote. -/
theorem unquoteLoop_appendStringLoop (n : Nat) :
    ∀ (s : GoString), s.length ≤ n → ∀ (fE fV fD : Nat) (tail : Bytes),
      s.length ≤ fE → s.length ≤ fV → validLoop fV s = true →
      (appendStringLoop fE s).length < fD →
      unquoteLoop fD (appendStringLoop fE s ++ 0x22 :: tail) = some (s, tail) := by
  induction n with
  | zero =>
    intro s hs fE fV fD tail _ _ _ hD
    have : s = [] := List.eq_nil_of_length_eq_zero (by omega)
    subst this
    rw [appendStringLoop_nil] at hD ⊢
    obtain ⟨fD', rfl⟩ : ∃ k, fD = k + 1 := ⟨fD - 1, by simp at hD; omega⟩
    exact unquoteLoop_quote fD' tail
  | succ n ih =>
    intro s hs fE fV fD tail hE hV hvalid hD
    cases s with
    | nil =>
      rw [appendStringLoop_nil] at hD ⊢
      obtain ⟨fD', rfl⟩ : ∃ k, fD = k + 1 := ⟨fD - 1, by simp at hD; omega⟩
      exact unquoteLoop_quote fD' tail
    | cons b rest =>
      simp only [List.length_cons] at hs hE hV
      obtain ⟨fE', rfl⟩ : ∃ k, fE = k + 1 := ⟨fE - 1, by omega⟩
      obtain ⟨fV', rfl⟩ : ∃ k, fV = k + 1 := ⟨fV - 1, by omega⟩
      obtain ⟨fD', rfl⟩ : ∃ k, fD = k + 1 := ⟨fD - 1, by omega⟩
      rw [validLoop_succ_cons] at hvalid
      rw [appendStringLoop_succ_cons] at hD ⊢
      by_cases hb : b.val < 0x80
      · rw [DecodeRune_ascii b rest hb] at hvalid
        simp only [RuneError] at hvalid
        rw [if_neg (by omega)] at hvalid
        simp only [Nat.sub_self, List.drop_zero] at hvalid
        rw [if_pos hb] at hD ⊢
        by_cases hsafe : htmlSafeSet b = true
        · rw [if_pos hsafe] at hD ⊢
          simp only [List.length_cons] at hD
          rw [List.cons_append, unquoteLoop_safe fD' b _ hb hsafe,
            ih rest (by omega) fE' fV' fD' tail (by omega) (by omega) hvalid (by omega)]
          rfl
        · rw [if_neg hsafe] at hD ⊢
          simp only [List.length_append] at hD
          have := escapeByte_length_pos b
          rw [List.append_assoc, unquoteLoop_escapeByte fD' b _ hb,
            ih rest (by omega) fE' fV' fD' tail (by omega) (by omega) hvalid (by omega)]
          rfl
      · rw [if_neg hb] at hD ⊢
        generalize hdec : DecodeRune (b :: rest) = d at hvalid hD ⊢
        obtain ⟨c, size⟩ := d
        simp only at hvalid hD ⊢
        by_cases hv : c = RuneError ∧ size = 1
        · rw [if_pos hv] at hvalid
          cases hvalid
        · rw [if_neg hv] at hvalid hD ⊢
          obtain ⟨pre, post, hrest, hsize, hpre, henc, hc, hdecode⟩ :=
            DecodeRune_valid b rest c size (by omega) hdec hv
          subst hrest hsize
          simp only [Nat.add_sub_cancel, List.drop_left] at hvalid hD ⊢
          simp only [List.length_append] at hs hE hV
          have hprelen : 1 ≤ pre.length := by
            cases pre with
            | nil => exact (hpre rfl).elim
            | cons _ _ => simp
          by_cases hls : c = 0x2028 ∨ c = 0x2029
          · rw [if_pos hls] at hD ⊢
            simp only [List.length_append, List.length_cons, List.length_nil] at hD
            simp only [List.cons_append, List.nil_append]
            rw [unquoteLoop_u fD' c 0x32 0x30 0x32 (hex (c % 16)) 2 0 2 (c % 16) (by decide)
              (by decide) (by decide) (unhex_hex _ (by omega)) (by omega) (by omega), henc,
              ih post (by omega) fE' fV' fD' tail (by omega) (by omega) hvalid (by omega)]
            simp [prepend]
          · rw [if_neg hls] at hD ⊢
            have htake : (b :: (pre ++ post)).take (pre.length + 1) = b :: pre := by
              simp
            rw [htake] at hD ⊢
            simp only [List.length_append, List.length_cons] at hD
            simp only [List.cons_append, List.append_assoc]
            rw [unquoteLoop_rune fD' b pre _ c (by omega) (hdecode _) henc,
              ih post (by omega) fE' fV' fD' tail (by omega) (by omega) hvalid (by omega)]
            simp [prepend]



theorem skipSpace_of_not_space (c : Byte) (X : Bytes) (h : isSpace c = false) :
    skipSpace (c :: X) = c :: X := by
  simp [skipSpace, h]

theorem skipSpace_spaces (ws X : Bytes) (h : ∀ c ∈ ws, isSpace c = true) :
    skipSpace (ws ++ X) = skipSpace X := by
  induction ws with
  | nil => rfl
  | cons c ws ih =>
    have hc := h c (by simp)
    simp only [List.cons_append, skipSpace, hc, if_true]
    exact ih (fun d hd => h d (by simp [hd]))

theorem appendNewline_spaces (depth : Nat) : ∀ c ∈ appendNewline depth, isSpace c = true := by
  intro c hc
  unfold appendNewline at hc
  rcases List.mem_cons.1 hc with h | h
  · subst h; decide
  · rw [List.mem_flatten] at h
    obtain ⟨l, hl, hcl⟩ := h
    rw [List.eq_of_mem_replicate hl] at hcl
    have e : str "  " = [0x20, 0x20] := by decide
    rw [e] at hcl
    simp only [List.mem_cons, List.mem_singleton, List.not_mem_nil, or_false, or_self] at hcl
    subst hcl
    decide

theorem skipSpace_blank (X : Bytes) : skipSpace (0x20 :: X) = skipSpace X := by
  simp only [skipSpace]
  rw [if_pos (by decide)]

theorem skipSpace_appendNewline (depth : Nat) (X : Bytes) :
    skipSpace (appendNewline depth ++ X) = skipSpace X :=
  skipSpace_spaces _ _ (appendNewline_spaces depth)

theorem parseString_appendString (s : GoString) (hv : ValidString s = true) (X : Bytes) :
    parseString (appendString s ++ X) = some (s, X) := by
  have e : appendString s ++ X = 0x22 :: (appendStringLoop s.length s ++ 0x22 :: X) := by
    simp [appendString]
  rw [e]
  unfold parseString
  simp only
  rw [if_pos (by decide)]
  exact unquoteLoop_appendStringLoop s.length s (Nat.le_refl _) s.length s.length _ X
    (Nat.le_refl _) (Nat.le_refl _) hv (by simp)

theorem take_four_quote (Y : Bytes) : (0x22 :: Y : Bytes).take 4 ≠ str "null" := by
  have e : str "null" = [0x6E, 0x75, 0x6C, 0x6C] := by decide
  rw [e]
  intro h
  simp only [List.take_succ_cons, List.cons.injEq] at h
  exact absurd h.1 (by decide)

theorem parseStringValue_appendString (s : GoString) (hv : ValidString s = true) (X : Bytes) :
    parseStringValue (appendString s ++ X) = some (some s, X) := by
  unfold parseStringValue
  have e : appendString s ++ X = 0x22 :: (appendStringLoop s.length s ++ 0x22 :: X) := by
    simp [appendString]
  rw [if_neg (by rw [e]; exact take_four_quote _), parseString_appendString s hv X]
  rfl

theorem appendString_head (s : GoString) (X : Bytes) :
    appendString s ++ X = 0x22 :: (appendStringLoop s.length s ++ 0x22 :: X) := by
  simp [appendString]

theorem objectLoop_succ (fuel : Nat) (v : Folder) (data : Bytes) :
    objectLoop (fuel + 1) v data =
      match parseString (skipSpace data) with
      | none => none
      | some (key, rest) =>
        match skipSpace rest with
        | [] => none
        | c :: rest =>
          if c.val ≠ 0x3A then none
          else
            match parseStringValue (skipSpace rest) with
            | none => none
            | some (value, rest) =>
              match skipSpace rest with
              | [] => none
              | c :: rest =>
                if c.val = 0x2C then objectLoop fuel (setField v key value) rest
                else if c.val = 0x7D then some (setField v key value, rest)
                else none := by
  rfl

/-- One member of an object that is followed by a comma. -/
theorem objectLoop_member (fuel : Nat) (v : Folder) (depth : Nat) (key value : GoString)
    (hk : ValidString key = true) (hv : ValidString value = true) (X : Bytes) :
    objectLoop (fuel + 1) v
        (appendNewline depth ++ (appendString key ++ 0x3A :: 0x20 :: (appendString value
          ++ 0x2C :: X)))
      = objectLoop fuel (setField v key (some value)) X := by
  rw [objectLoop_succ, skipSpace_appendNewline, appendString_head key,
    skipSpace_of_not_space _ _ (by decide), ← appendString_head key,
    parseString_appendString key hk]
  simp only
  rw [skipSpace_of_not_space _ _ (by decide)]
  simp only
  rw [if_neg (by decide)]
  have e : skipSpace (0x20 :: (appendString value ++ 0x2C :: X))
      = appendString value ++ 0x2C :: X := by
    rw [skipSpace_blank, appendString_head, skipSpace_of_not_space _ _ (by decide)]
  rw [e, parseStringValue_appendString value hv]
  simp only
  rw [skipSpace_of_not_space _ _ (by decide)]
  simp only
  rw [if_pos (by decide)]

/-- The last member of an object, followed by a line break and the brace. -/
theorem objectLoop_last (fuel : Nat) (v : Folder) (depth depth2 : Nat) (key value : GoString)
    (hk : ValidString key = true) (hv : ValidString value = true) (X : Bytes) :
    objectLoop (fuel + 1) v
        (appendNewline depth ++ (appendString key ++ 0x3A :: 0x20 :: (appendString value
          ++ (appendNewline depth2 ++ 0x7D :: X))))
      = some (setField v key (some value), X) := by
  rw [objectLoop_succ, skipSpace_appendNewline, appendString_head key,
    skipSpace_of_not_space _ _ (by decide), ← appendString_head key,
    parseString_appendString key hk]
  simp only
  rw [skipSpace_of_not_space _ _ (by decide)]
  simp only
  rw [if_neg (by decide)]
  have e : skipSpace (0x20 :: (appendString value ++ (appendNewline depth2 ++ 0x7D :: X)))
      = appendString value ++ (appendNewline depth2 ++ 0x7D :: X) := by
    rw [skipSpace_blank, appendString_head, skipSpace_of_not_space _ _ (by decide)]
  rw [e, parseStringValue_appendString value hv]
  simp only
  rw [skipSpace_appendNewline, skipSpace_of_not_space _ _ (by decide)]
  simp only
  rw [if_neg (by decide), if_pos (by decide)]

set_option maxRecDepth 100000 in
theorem marshalIndentFolder_append (f : Folder) (X : Bytes) :
    marshalIndentFolder f ++ X =
      0x7B :: (appendNewline 2 ++ (appendString (str "DisplayName") ++ 0x3A :: 0x20 ::
        (appendString f.DisplayName ++ 0x2C :: (appendNewline 2 ++ (appendString (str "Type")
        ++ 0x3A :: 0x20 :: (appendString f.Type_ ++ 0x2C :: (appendNewline 2
        ++ (appendString (str "FolderID") ++ 0x3A :: 0x20 :: (appendString f.FolderID
        ++ (appendNewline 1 ++ 0x7D :: X)))))))))) := by
  have e1 : str "\"DisplayName\": " = appendString (str "DisplayName") ++ [0x3A, 0x20] := by
    decide
  have e2 : str "\"Type\": " = appendString (str "Type") ++ [0x3A, 0x20] := by decide
  have e3 : str "\"FolderID\": " = appendString (str "FolderID") ++ [0x3A, 0x20] := by decide
  unfold marshalIndentFolder
  rw [e1, e2, e3]
  simp only [List.append_assoc, List.cons_append, List.nil_append]

theorem take_four_brace (Y : Bytes) : (0x7B :: Y : Bytes).take 4 ≠ str "null" := by
  have e : str "null" = [0x6E, 0x75, 0x6C, 0x6C] := by decide
  rw [e]
  intro h
  simp only [List.take_succ_cons, List.cons.injEq] at h
  exact absurd h.1 (by decide)

theorem take_four_bracket (Y : Bytes) : (0x5B :: Y : Bytes).take 4 ≠ str "null" := by
  have e : str "null" = [0x6E, 0x75, 0x6C, 0x6C] := by decide
  rw [e]
  intro h
  simp only [List.take_succ_cons, List.cons.injEq] at h
  exact absurd h.1 (by decide)

theorem appendNewline_length (depth : Nat) : 1 ≤ (appendNewline depth).length := by
  simp [appendNewline]

set_option maxRecDepth 100000 in
theorem objectLoop_three (a b c : GoString) (h1 : ValidString a = true)
    (h2 : ValidString b = true) (h3 : ValidString c = true) (X : Bytes) (fuel : Nat)
    (hfuel : 3 ≤ fuel) :
    objectLoop fuel { DisplayName := [], Type_ := [], FolderID := [] }
        (appendNewline 2 ++ (appendString (str "DisplayName") ++ 0x3A :: 0x20 ::
          (appendString a ++ 0x2C :: (appendNewline 2 ++ (appendString (str "Type")
          ++ 0x3A :: 0x20 :: (appendString b ++ 0x2C :: (appendNewline 2
          ++ (appendString (str "FolderID") ++ 0x3A :: 0x20 :: (appendString c
          ++ (appendNewline 1 ++ 0x7D :: X))))))))))
      = some ({ DisplayName := a, Type_ := b, FolderID := c }, X) := by
  have k1 : ValidString (str "DisplayName") = true := by decide
  have k2 : ValidString (str "Type") = true := by decide
  have k3 : ValidString (str "FolderID") = true := by decide
  obtain ⟨k, rfl⟩ : ∃ k, fuel = k + 1 + 1 + 1 := ⟨fuel - 3, by omega⟩
  rw [objectLoop_member _ _ _ _ _ k1 h1, objectLoop_member _ _ _ _ _ k2 h2,
    objectLoop_last _ _ _ _ _ _ k3 h3]
  have e1 : (str "Type" = str "DisplayName") = False := by decide
  have e2 : (str "FolderID" = str "DisplayName") = False := by decide
  have e3 : (str "FolderID" = str "Type") = False := by decide
  simp [setField, e1, e2, e3]

set_option maxRecDepth 100000 in
theorem parseElement_marshalIndentFolder (f : Folder) (hf : f.Valid) (X : Bytes) :
    parseElement (marshalIndentFolder f ++ X) = some (f, X) := by
  obtain ⟨h1, h2, h3⟩ := hf
  rw [marshalIndentFolder_append]
  unfold parseElement
  rw [if_neg (take_four_brace _)]
  simp only
  rw [if_neg (by decide), skipSpace_appendNewline, appendString_head (str "DisplayName"),
    skipSpace_of_not_space _ _ (by decide)]
  simp only
  rw [if_neg (by decide), ← appendString_head (str "DisplayName")]
  rw [objectLoop_three f.DisplayName f.Type_ f.FolderID h1 h2 h3 X _ (by
    have := appendNewline_length 2
    simp only [List.length_append, List.length_cons]
    omega)]

theorem arrayLoop_succ (fuel : Nat) (data : Bytes) :
    arrayLoop (fuel + 1) data =
      match parseElement (skipSpace data) with
      | none => none
      | some (f, rest) =>
        match skipSpace rest with
        | [] => none
        | c :: rest =>
          if c.val = 0x2C then (arrayLoop fuel rest).map fun (fs, rest) => (f :: fs, rest)
          else if c.val = 0x5D then some ([f], rest)
          else none := by
  rfl

theorem skipSpace_marshalIndentFolder (f : Folder) (X : Bytes) :
    skipSpace (marshalIndentFolder f ++ X) = marshalIndentFolder f ++ X := by
  rw [marshalIndentFolder_append]
  exact skipSpace_of_not_space _ _ (by decide)

theorem arrayLoop_marshalIndentElems (fs : List Folder) :
    fs ≠ [] → (∀ f ∈ fs, f.Valid) → ∀ (fuel : Nat) (X : Bytes), fs.length ≤ fuel →
      arrayLoop fuel (marshalIndentElems fs ++ (appendNewline 0 ++ 0x5D :: X)) = some (fs, X) := by
  induction fs with
  | nil => intro h; exact (h rfl).elim
  | cons f rest ih =>
    intro _ hvalid fuel X hfuel
    obtain ⟨fuel', rfl⟩ : ∃ k, fuel = k + 1 := ⟨fuel - 1, by simp at hfuel; omega⟩
    have hf : f.Valid := hvalid f (by simp)
    cases rest with
    | nil =>
      rw [arrayLoop_succ]
      simp only [marshalIndentElems, List.append_assoc]
      rw [skipSpace_appendNewline, skipSpace_marshalIndentFolder,
        parseElement_marshalIndentFolder f hf]
      simp only
      rw [skipSpace_appendNewline, skipSpace_of_not_space _ _ (by decide)]
      simp only
      rw [if_neg (by decide), if_pos (by decide)]
    | cons g rest =>
      rw [arrayLoop_succ]
      simp only [marshalIndentElems, List.append_assoc, List.cons_append, List.nil_append]
      rw [skipSpace_appendNewline, skipSpace_marshalIndentFolder,
        parseElement_marshalIndentFolder f hf]
      simp only
      rw [skipSpace_of_not_space _ _ (by decide)]
      simp only
      rw [if_pos (by decide)]
      have := ih (by simp) (fun x hx => hvalid x (by simp [hx])) fuel' X
        (by simp at hfuel ⊢; omega)
      simp only [List.append_assoc] at this
      rw [this]
      rfl

theorem marshalIndentElems_length (fs : List Folder) :
    fs.length ≤ (marshalIndentElems fs).length := by
  induction fs with
  | nil => simp
  | cons f rest ih =>
    cases rest with
    | nil =>
      have := appendNewline_length 1
      simp only [marshalIndentElems, List.length_append, List.length_cons, List.length_nil]
      omega
    | cons g rest =>
      have := appendNewline_length 1
      simp only [marshalIndentElems, List.length_append, List.length_cons] at ih ⊢
      omega

theorem marshalIndentElems_head (f : Folder) (rest : List Folder) (X : Bytes) :
    skipSpace (marshalIndentElems (f :: rest) ++ X)
      = 0x7B :: (skipSpace (marshalIndentElems (f :: rest) ++ X)).tail := by
  cases rest with
  | nil =>
    simp only [marshalIndentElems, List.append_assoc]
    rw [skipSpace_appendNewline, skipSpace_marshalIndentFolder, marshalIndentFolder_append]
    rfl
  | cons g rest =>
    simp only [marshalIndentElems, List.append_assoc]
    rw [skipSpace_appendNewline, skipSpace_marshalIndentFolder, marshalIndentFolder_append]
    rfl

/-- Reading back the document written for folders that are valid UTF-8 gives
the same slice. -/
theorem jsonUnmarshal_indentedJSON (folders : Slice Folder)
    (hvalid : ∀ f ∈ folders.elems, f.Valid) :
    jsonUnmarshal (indentedJSON folders) = .ok folders := by
  cases folders with
  | none => rfl
  | some fs =>
    cases fs with
    | nil => rfl
    | cons f rest =>
      have e0 : skipSpace (indentedJSON (some (f :: rest)))
          = 0x5B :: (marshalIndentElems (f :: rest) ++ (appendNewline 0 ++ [0x5D])) := by
        unfold indentedJSON
        simp only [List.cons_append, List.nil_append, List.append_assoc]
        exact skipSpace_of_not_space _ _ (by decide)
      have e1 := marshalIndentElems_head f rest (appendNewline 0 ++ [0x5D])
      have e2 : arrayLoop (marshalIndentElems (f :: rest) ++ (appendNewline 0 ++ [0x5D])).length
          (marshalIndentElems (f :: rest) ++ (appendNewline 0 ++ [0x5D]))
          = some (f :: rest, []) :=
        arrayLoop_marshalIndentElems (f :: rest) (by simp) hvalid _ [] (by
          have := marshalIndentElems_length (f :: rest)
          simp only [List.length_append]
          omega)
      unfold jsonUnmarshal
      simp only [e0]
      rw [if_neg (take_four_bracket _), if_neg (by decide), e1]
      simp only
      rw [if_neg (by decide), e2]
      rfl

/-- C7 as stated fails: for the folder whose display name is the single byte
0xFF, which is not valid UTF-8, the document `saveFoldersToJSON` writes holds
the escape of U+FFFD in its place, and re-parsing it yields the display name
EF BF BD, not the original one. -/
theorem roundtrip_replaces_invalid_utf8 :
    (saveFoldersToJSON (stubEnv exampleConfig ⟨1, str "1", none⟩ ⟨1, str "1"⟩)
        (some [⟨[0xFF], str "8", str "1"⟩]) (str "calendars.json")).1
        = [.WriteFile (str "calendars.json") (indentedJSON (some [⟨[0xFF], str "8", str "1"⟩]))
            0o644]
      ∧ jsonUnmarshal (indentedJSON (some [⟨[0xFF], str "8", str "1"⟩]))
        = .ok (some [⟨[0xEF, 0xBF, 0xBD], str "8", str "1"⟩])
      ∧ jsonUnmarshal (indentedJSON (some [⟨[0xFF], str "8", str "1"⟩]))
        ≠ .ok (some [⟨[0xFF], str "8", str "1"⟩]) := by
  have h : jsonUnmarshal (indentedJSON (some [⟨[0xFF], str "8", str "1"⟩]))
      = .ok (some [⟨[0xEF, 0xBF, 0xBD], str "8", str "1"⟩]) := by rfl
  refine ⟨rfl, h, ?_⟩
  rw [h]
  intro e
  injection e with e
  revert e
  decide

/-- C7 amended: for every folder list whose display names, type markers and
server ids are valid UTF-8, `saveFoldersToJSON` writes one document, and
re-parsing that document yields the same list: the same folders in the same
order, each with the same display name, type marker and server id (and the nil
slice for the nil slice). -/
theorem saveFoldersToJSON_roundtrip (env : Env) (folders : Slice Folder) (filename : GoString)
    (hvalid : ∀ f ∈ folders.elems, f.Valid) :
    (saveFoldersToJSON env folders filename).1
        = [.WriteFile filename (indentedJSON folders) 0o644]
      ∧ jsonUnmarshal (indentedJSON folders) = .ok folders :=
  ⟨rfl, jsonUnmarshal_indentedJSON folders hvalid⟩

set_option maxRecDepth 100000 in
theorem saveFoldersToJSON_roundtrip_witness :
    (saveFoldersToJSON (stubEnv exampleConfig ⟨1, str "1", none⟩ ⟨1, str "1"⟩)
        (some [folderCalendar, folderHolidays]) (str "calendars.json")).1
        = [.WriteFile (str "calendars.json") (indentedJSON (some [folderCalendar, folderHolidays]))
            0o644]
      ∧ jsonUnmarshal (indentedJSON (some [folderCalendar, folderHolidays]))
        = .ok (some [folderCalendar, folderHolidays]) :=
  saveFoldersToJSON_roundtrip (stubEnv exampleConfig ⟨1, str "1", none⟩ ⟨1, str "1"⟩)
    (some [folderCalendar, folderHolidays]) (str "calendars.json") (by
      intro f hf
      simp only [Slice.elems, List.mem_cons, List.mem_singleton, List.not_mem_nil,
        or_false] at hf
      rcases hf with rfl | rfl <;> exact ⟨by decide, by decide, by decide⟩)

end ExchangeSync
